import Mathlib

/-!
Verification of the SmartReads recommendation engine
(src/recommendation_engine.py) against its specification.

The Python source is shallowly embedded: floating point arithmetic is
modelled exactly over the rationals, Python dicts are modelled as
insertion-ordered association lists, `sorted(..., reverse=True)` and
pandas `nlargest` (with its keep-first tie policy) are modelled as a
stable descending insertion sort, and `defaultdict` accumulation is
modelled as an insertion-ordered association list with additive update.

The two sklearn-provided numeric kernels (cosine similarity and the
TF-IDF vectorizer) are irrational-valued in general, so the parts of the
engine that build them (`CollaborativeFilter.fit`,
`ContentBasedFilter.fit`, and the loaders calling them) take the kernel
as an explicit function parameter; a real-valued `cosineSimilarity`
implementing sklearn's formula is defined below and agreement lemmas
show the concrete similarity functions used in witnesses and
counterexamples coincide with it on every vector pair they are applied
to.  All inference-time code (`recommend`, the enhancer, analytics) only
reads the stored matrices, exactly as the Python object state does.
-/

/-! ### Generic list helpers (Python dict / set / sorted modelling) -/

/-- Deduplicate a list keeping the first occurrence of each element.
Models the (deterministic choice for the) order of a Python `set`
built from a list; only membership is ever relevant downstream. -/
def dedupFirst : List String → List String
  | [] => []
  | x :: xs => x :: (dedupFirst xs).filter (fun y => y ≠ x)

/-- Lookup in an association list (Python dict access). -/
def assocLookup {α : Type} : List (String × α) → String → Option α
  | [], _ => none
  | (k, v) :: rest, key => if k = key then some v else assocLookup rest key

/-- Python dict assignment `d[k] = v`: replace in place if the key exists
(keeping its insertion position), otherwise append. -/
def dictInsert {α : Type} : List (String × α) → String → α → List (String × α)
  | [], k, v => [(k, v)]
  | (k', v') :: rest, k, v => if k' = k then (k', v) :: rest else (k', v') :: dictInsert rest k v

/-- Last element of a list whose key matches, if any. -/
def lastWithKey {α : Type} (key : α → String) (l : List α) (k : String) : Option α :=
  l.foldl (fun o x => if key x = k then some x else o) none

/-- Stable descending insertion step: an element is placed before the
first element whose key is less than or equal to its own key, so earlier
elements win ties.  This matches Python `sorted(..., reverse=True)`
(stable) and pandas `nlargest` with its default keep-first policy. -/
def insertDesc {β : Type} (key : β → ℚ) (x : β) : List β → List β
  | [] => [x]
  | y :: ys => if key y ≤ key x then x :: y :: ys else y :: insertDesc key x ys

/-- Stable descending sort by a rational key. -/
def sortDescBy {β : Type} (key : β → ℚ) (l : List β) : List β :=
  l.foldr (insertDesc key) []

/-- Additive update of an insertion-ordered association list, modelling
`defaultdict(float)` with `d[k] += v`: an existing key accumulates in
place, a new key is appended. -/
def addTo : List (String × ℚ) → String → ℚ → List (String × ℚ)
  | [], k, v => [(k, v)]
  | (k', v') :: rest, k, v => if k' = k then (k', v' + v) :: rest else (k', v') :: addTo rest k v

/-- Sum of a list of rationals. -/
def sumQ (l : List ℚ) : ℚ := l.foldr (· + ·) 0

/-- Last `k` elements of a list (Python `l[-k:]`). -/
def takeLast {α : Type} (k : Nat) (l : List α) : List α := l.drop (l.length - k)

/-- Index of the first occurrence of an element (Python `list.index`),
as an option (the caller guards with a membership test). -/
def firstIndex : List String → String → Option Nat
  | [], _ => none
  | x :: xs, s => if x = s then some 0 else (firstIndex xs s).map (· + 1)

/-- Python `str.split()` with no arguments: split on whitespace runs,
dropping empty pieces. -/
def pyWords (s : String) : List String :=
  (s.split (fun c => c.isWhitespace)).filter (fun w => w ≠ "")

/-- Componentwise sum of two vectors (numpy row addition). -/
def vecAdd : List ℚ → List ℚ → List ℚ
  | [], _ => []
  | _, [] => []
  | x :: xs, y :: ys => (x + y) :: vecAdd xs ys

/-- Sum of a list of equal-length vectors. -/
def sumVecs : List (List ℚ) → List ℚ
  | [] => []
  | [v] => v
  | v :: vs => vecAdd v (sumVecs vs)

/-- Scale a vector by a rational. -/
def scaleVec (c : ℚ) (v : List ℚ) : List ℚ := v.map (fun x => c * x)

/-- Dot product of two rational vectors. -/
def dotQ : List ℚ → List ℚ → ℚ
  | [], _ => 0
  | _, [] => 0
  | x :: xs, y :: ys => x * y + dotQ xs ys

/-- Cosine similarity as computed by sklearn over two (rational-valued)
vectors, as a real number: dot product over the product of Euclidean
norms, a zero norm being replaced by 1 (sklearn's guard against
division by zero).  Irrational in general, hence kept separate from the
executable pipeline and related to it by agreement lemmas. -/
noncomputable def cosineSimilarity (u v : List ℚ) : ℝ :=
  let nu : ℝ := Real.sqrt ((dotQ u u : ℚ) : ℝ)
  let nv : ℝ := Real.sqrt ((dotQ v v : ℚ) : ℝ)
  ((dotQ u v : ℚ) : ℝ) / ((if nu = 0 then 1 else nu) * (if nv = 0 then 1 else nv))

/-! ### Data model (dataclasses of recommendation_engine.py) -/

/-- Book dataclass. -/
structure Book where
  book_id : String
  title : String := ""
  author : String := ""
  isbn : String := ""
  genre : List String := []
  subject : List String := []
  reading_level : String := ""
  description : String := ""
  publication_year : Int := 0
  page_count : Nat := 0
  language : String := "English"
  available_copies : Int := 1
  total_copies : Int := 1
  popularity_score : ℚ := 0
deriving DecidableEq

/-- Student dataclass. -/
structure Student where
  student_id : String
  grade_level : Int := 0
  reading_level : String := ""
  preferred_genres : List String := []
  interests : List String := []
  reading_history : List String := []
deriving DecidableEq

/-- BorrowingRecord dataclass (dates are opaque integers: no modelled
logic reads them). -/
structure BorrowingRecord where
  student_id : String
  book_id : String
  borrow_date : Int := 0
  return_date : Option Int := none
  rating : Option Int := none
  completed : Bool := false
deriving DecidableEq

/-- Recommendation dataclass. -/
structure Recommendation where
  book : Book
  score : ℚ
  reason : String
  strategy : String
  confidence : ℚ
deriving DecidableEq

/-! ### CollaborativeFilter -/

/-- Dense user-item matrix built by `CollaborativeFilter.fit`: the two
pandas index lists plus the cell contents as a function. -/
structure UserItemMatrix where
  userIds : List String
  bookIds : List String
  entry : String → String → ℚ

/-- Pairwise similarity matrix (user-user or item-item): the pandas
index plus the cell contents as a function. -/
structure SimMatrix where
  index : List String
  sim : String → String → ℚ

/-- State of the CollaborativeFilter object.  The optional SVD model of
the source is dead scaffolding (fitted but never consulted when
recommending, per the spec) and is not modelled. -/
structure CollaborativeFilter where
  user_item_matrix : Option UserItemMatrix
  user_similarity_matrix : Option SimMatrix
  item_similarity_matrix : Option SimMatrix

/-- Implicit-feedback weight of one borrowing record: base 1, replaced
by rating/5 when a truthy (nonzero) rating is present, else 1.2 when
the record is marked completed. -/
def recordValue (r : BorrowingRecord) : ℚ :=
  match r.rating with
  | some k => if k ≠ 0 then (k : ℚ) / 5 else if r.completed then 6/5 else 1
  | none => if r.completed then 6/5 else 1

/-- Cell contents of the user-item matrix: the matrix starts at 0 and
each record assigns (overwrites) its weight at its (student, book)
cell, in input order. -/
def matrixEntry (records : List BorrowingRecord) : String → String → ℚ :=
  records.foldl
    (fun f r => fun s b => if s = r.student_id ∧ b = r.book_id then recordValue r else f s b)
    (fun _ _ => 0)

/-- The user-item matrix built from a record list. -/
def builtMatrix (records : List BorrowingRecord) : UserItemMatrix :=
  { userIds := dedupFirst (records.map (fun r => r.student_id))
  , bookIds := dedupFirst (records.map (fun r => r.book_id))
  , entry := matrixEntry records }

/-- Row vector of a user in the user-item matrix. -/
def rowVector (m : UserItemMatrix) (u : String) : List ℚ :=
  m.bookIds.map (fun b => m.entry u b)

/-- Column vector of a book in the user-item matrix. -/
def colVector (m : UserItemMatrix) (b : String) : List ℚ :=
  m.userIds.map (fun u => m.entry u b)

/-- CollaborativeFilter.fit, parameterized by the similarity kernel
`cos` standing for sklearn's cosine_similarity (see `cosineSimilarity`).
The similarity matrices are only (re)assigned when the corresponding
index has more than one element; otherwise the previous object state
survives, exactly as in the Python method. -/
def CollaborativeFilter.fit (cos : List ℚ → List ℚ → ℚ) (cf : CollaborativeFilter)
    (records : List BorrowingRecord) : CollaborativeFilter :=
  let m := builtMatrix records
  { user_item_matrix := some m
  , user_similarity_matrix :=
      if 1 < m.userIds.length then
        some { index := m.userIds, sim := fun u v => cos (rowVector m u) (rowVector m v) }
      else cf.user_similarity_matrix
  , item_similarity_matrix :=
      if 1 < m.bookIds.length then
        some { index := m.bookIds, sim := fun b c => cos (colVector m b) (colVector m c) }
      else cf.item_similarity_matrix }

/-- The five (at most) similar users consulted by the collaborative
recommender: pandas `similarity[student_id].nlargest(6).index[1:]`,
i.e. the keep-first six largest entries of the student's similarity
column with the first entry dropped. -/
def similarUsers (sm : SimMatrix) (sid : String) : List String :=
  (((sortDescBy (fun p => p.2) (sm.index.map (fun u => (u, sm.sim u sid)))).take 6).map
    (fun p => p.1)).drop 1

/-- Inner loop of the collaborative accumulation for one neighbor `u`:
every book with positive weight in the neighbor's row that has weight 0
in the student's row contributes weight times sim(student, neighbor),
added into the defaultdict. -/
def neighborScan (m : UserItemMatrix) (sm : SimMatrix) (sid u : String)
    (books : List String) (acc : List (String × ℚ)) : List (String × ℚ) :=
  books.foldl
    (fun acc2 b =>
      if 0 < m.entry u b then
        if m.entry sid b = 0 then addTo acc2 b (m.entry u b * sm.sim sid u) else acc2
      else acc2)
    acc

/-- Accumulation loop of the collaborative recommender over all
consulted neighbors. -/
def collabAccumulate (m : UserItemMatrix) (sm : SimMatrix) (sid : String)
    (neighbors : List String) : List (String × ℚ) :=
  neighbors.foldl (fun acc u => neighborScan m sm sid u m.bookIds acc) []

/-- Contribution list of one book described by the specification: one
term weight times sim(target, neighbor) per consulted neighbor that
interacted with the book, provided the target did not. -/
def specNeighborContributions (m : UserItemMatrix) (sm : SimMatrix) (sid b : String)
    (neighbors : List String) : List ℚ :=
  neighbors.filterMap
    (fun u =>
      if 0 < m.entry u b ∧ m.entry sid b = 0 then some (m.entry u b * sm.sim sid u) else none)

/-- Last record in input order carrying a given (student, book) pair. -/
def lastRecordFor (records : List BorrowingRecord) (s b : String) : Option BorrowingRecord :=
  records.foldl
    (fun o r => if s = r.student_id ∧ b = r.book_id then some r else o) none

/-- Column-sum popularity used for the collaborative cold-start branch. -/
def columnSums (m : UserItemMatrix) : List (String × ℚ) :=
  m.bookIds.map (fun b => (b, sumQ (colVector m b)))

/-- CollaborativeFilter.recommend. -/
def CollaborativeFilter.recommend (cf : CollaborativeFilter) (sid : String)
    (n : Nat) : List (String × ℚ) :=
  match cf.user_item_matrix with
  | none => []
  | some m =>
    if sid ∈ m.userIds then
      match cf.user_similarity_matrix with
      | some sm =>
        (sortDescBy (fun p => p.2) (collabAccumulate m sm sid (similarUsers sm sid))).take n
      | none => []
    else
      (sortDescBy (fun p => p.2) (columnSums m)).take n

/-! ### ContentBasedFilter -/

/-- State of the ContentBasedFilter object: the TF-IDF row vectors (one
per fitted book, None before the first successful fit) and the fitted
book id list. -/
structure ContentBasedFilter where
  book_features : Option (List (List ℚ))
  book_ids : List String

/-- Feature document of one book: title, author, space-joined genres,
space-joined subjects and description, space-separated. -/
def featureText (b : Book) : String :=
  b.title ++ " " ++ b.author ++ " " ++ String.intercalate " " b.genre ++ " " ++
    String.intercalate " " b.subject ++ " " ++ b.description

/-- ContentBasedFilter.fit, parameterized by the vectorizer `tfidf`
standing for sklearn's TfidfVectorizer (1000-term vocabulary bound,
English stop words).  The book id list is always rebuilt; the feature
matrix is only reassigned when the document list is nonempty, otherwise
the previous object state survives, exactly as in the Python method. -/
def ContentBasedFilter.fit (tfidf : List String → List (List ℚ))
    (cf : ContentBasedFilter) (books : List Book) : ContentBasedFilter :=
  let texts := books.map featureText
  { book_ids := books.map (fun b => b.book_id)
  , book_features := if texts = [] then cf.book_features else some (tfidf texts) }

/-- Indices (first occurrences) of the last ten history books that are
present among the fitted book ids. -/
def historyIndices (cf : ContentBasedFilter) (student : Student) : List Nat :=
  (takeLast 10 student.reading_history).filterMap (fun bid => firstIndex cf.book_ids bid)

/-- Mean profile vector of a nonempty list of feature vectors. -/
def meanVec (vs : List (List ℚ)) : List ℚ :=
  scaleVec (1 / (vs.length : ℚ)) (sumVecs vs)

/-- ContentBasedFilter.recommend, parameterized by the similarity
kernel `cos` standing for sklearn's cosine_similarity.  The Python
method also receives the catalog dict but never reads it; the parameter
is kept for interface fidelity. -/
def ContentBasedFilter.recommend (cos : List ℚ → List ℚ → ℚ) (cf : ContentBasedFilter)
    (student : Student) (_books_dict : List (String × Book)) (n : Nat) : List (String × ℚ) :=
  match cf.book_features with
  | none => []
  | some feats =>
    if student.reading_history = [] then []
    else
      let idxs := historyIndices cf student
      if idxs = [] then []
      else
        let avgProfile := meanVec (idxs.map (fun i => feats.getD i []))
        let sims := feats.map (fun v => cos avgProfile v)
        let pairs := (cf.book_ids.zip sims).filter
          (fun p => decide (p.1 ∉ student.reading_history))
        (sortDescBy (fun p => p.2) pairs).take n

/-! ### LLMRecommender (mock enhancement path, use_mock = True) -/

/-- Lower-cased whitespace-tokenized words of the student's interests. -/
def interestKeywords (student : Student) : List String :=
  student.interests.flatMap (fun i => (pyWords i).map String.toLower)

/-- Words of the lower-cased book description. -/
def descriptionWords (b : Book) : List String :=
  pyWords b.description.toLower

/-- Genres of the book also preferred by the student, in book order. -/
def matchedGenres (student : Student) (b : Book) : List String :=
  b.genre.filter (fun g => decide (g ∈ student.preferred_genres))

/-- Interest words occurring in the description, in interest order
(deterministic stand-in for Python's arbitrary set-intersection order;
only the first element and nonemptiness are consumed). -/
def matchedInterestWords (student : Student) (b : Book) : List String :=
  (interestKeywords student).filter (fun w => decide (w ∈ descriptionWords b))

/-- LLMRecommender._mock_llm_enhancement: deterministic rule-based score
boost and explanation sentence. -/
def mockLLMEnhancement (student : Student) (b : Book) (base : ℚ) : ℚ × String :=
  let genreHit := matchedGenres student b ≠ []
  let levelHit := b.reading_level = student.reading_level
  let interestHit := matchedInterestWords student b ≠ []
  let boost : ℚ :=
    (if genreHit then 1/10 else 0) + (if levelHit then 1/20 else 0) +
      (if interestHit then 3/20 else 0)
  let reasons : List String :=
    (if genreHit then
      ["matches your preferred genre of " ++ (matchedGenres student b).headD ""] else []) ++
    (if levelHit then ["is at your reading level"] else []) ++
    (if interestHit then
      ["relates to your interest in " ++ (matchedInterestWords student b).headD ""] else [])
  let explanation :=
    if reasons ≠ [] then
      "This book is recommended because it " ++ String.intercalate " and " reasons ++ "."
    else
      "This book offers a new reading experience to expand your horizons."
  (min 1 (base + boost), explanation)

/-! ### SmartReadsRecommendationEngine -/

/-- State of the main engine object. -/
structure SmartReadsRecommendationEngine where
  collaborative_filter : CollaborativeFilter
  content_filter : ContentBasedFilter
  books_catalog : List (String × Book)
  students : List (String × Student)
  borrowing_records : List BorrowingRecord

/-- Freshly constructed engine. -/
def initialEngine : SmartReadsRecommendationEngine :=
  { collaborative_filter :=
      { user_item_matrix := none, user_similarity_matrix := none, item_similarity_matrix := none }
  , content_filter := { book_features := none, book_ids := [] }
  , books_catalog := []
  , students := []
  , borrowing_records := [] }

/-- load_catalog: each book is dict-assigned into the catalog (an
upsert into the existing dict, not a wipe), then the content filter is
refitted on exactly the passed list. -/
def SmartReadsRecommendationEngine.load_catalog (tfidf : List String → List (List ℚ))
    (st : SmartReadsRecommendationEngine) (books : List Book) :
    SmartReadsRecommendationEngine :=
  { st with
    books_catalog := books.foldl (fun d b => dictInsert d b.book_id b) st.books_catalog
  , content_filter := st.content_filter.fit tfidf books }

/-- load_students: each student is dict-assigned into the student store
(an upsert into the existing dict, not a wipe). -/
def SmartReadsRecommendationEngine.load_students (st : SmartReadsRecommendationEngine)
    (students : List Student) : SmartReadsRecommendationEngine :=
  { st with
    students := students.foldl (fun d s => dictInsert d s.student_id s) st.students }

/-- Number of records borrowing a given book. -/
def recordCount (records : List BorrowingRecord) (bid : String) : Nat :=
  (records.filter (fun r => decide (r.book_id = bid))).length

/-- Largest per-book borrow count, 1 when there are no records. -/
def maxBorrowCount (records : List BorrowingRecord) : Nat :=
  if records = [] then 1
  else ((dedupFirst (records.map (fun r => r.book_id))).map
    (fun bid => recordCount records bid)).foldl max 0

/-- Popularity update applied to one catalog book when history is
loaded: books with at least one interaction in the loaded records get
count over max count, other books keep their previous score. -/
def updatePopularity (records : List BorrowingRecord) (bid : String) (b : Book) : Book :=
  if 0 < recordCount records bid then
    { b with popularity_score := (recordCount records bid : ℚ) / (maxBorrowCount records : ℚ) }
  else b

/-- load_borrowing_history: replaces the record store, refits the
collaborative filter, and recomputes popularity scores for the books
mentioned by the loaded records. -/
def SmartReadsRecommendationEngine.load_borrowing_history (cos : List ℚ → List ℚ → ℚ)
    (st : SmartReadsRecommendationEngine) (records : List BorrowingRecord) :
    SmartReadsRecommendationEngine :=
  { st with
    borrowing_records := records
  , collaborative_filter := st.collaborative_filter.fit cos records
  , books_catalog := st.books_catalog.map (fun p => (p.1, updatePopularity records p.1 p.2)) }

/-- Confidence of a strategy given the student's history length:
min(1, len/denom). -/
def historyConfidence (student : Student) (denom : ℚ) : ℚ :=
  min 1 ((student.reading_history.length : ℚ) / denom)

/-- One collaborative-strategy recommendation, after enhancement. -/
def mkCollaborativeRec (student : Student) (b : Book) (score : ℚ) : Recommendation :=
  { book := b
  , score := (mockLLMEnhancement student b score).1
  , reason := (mockLLMEnhancement student b score).2
  , strategy := "collaborative"
  , confidence := historyConfidence student 10 }

/-- One content-strategy recommendation, after enhancement. -/
def mkContentRec (student : Student) (b : Book) (score : ℚ) : Recommendation :=
  { book := b
  , score := (mockLLMEnhancement student b score).1
  , reason := (mockLLMEnhancement student b score).2
  , strategy := "content"
  , confidence := historyConfidence student 5 }

/-- Strategy 1 loop of recommend: the first n/2 collaborative
candidates, each kept only when its id resolves in the catalog. -/
def collabPhase (catalog : List (String × Book)) (student : Student)
    (collabRecs : List (String × ℚ)) (n : Nat) : List Recommendation :=
  (collabRecs.take (n / 2)).foldl
    (fun acc p =>
      match assocLookup catalog p.1 with
      | some b => acc ++ [mkCollaborativeRec student b p.2]
      | none => acc)
    []

/-- Strategy 2 loop of recommend: the first n/2 content candidates,
each kept only when its id resolves in the catalog and is not already
present in the accumulated list. -/
def contentPhase (catalog : List (String × Book)) (student : Student)
    (contentRecs : List (String × ℚ)) (n : Nat) (acc0 : List Recommendation) :
    List Recommendation :=
  (contentRecs.take (n / 2)).foldl
    (fun acc p =>
      match assocLookup catalog p.1 with
      | some b =>
        if acc.any (fun r => r.book.book_id == p.1) then acc
        else acc ++ [mkContentRec student b p.2]
      | none => acc)
    acc0

/-- Genres represented in the student's history (as recorded in the
catalog), first-occurrence order; only membership is consumed. -/
def exploredGenres (catalog : List (String × Book)) (student : Student) : List String :=
  student.reading_history.foldl
    (fun s bid =>
      match assocLookup catalog bid with
      | some b => s ++ b.genre.filter (fun g => decide (g ∉ s))
      | none => s)
    []

/-- One diversity-strategy recommendation. -/
def mkDiversityRec (explored : List String) (b : Book) : Recommendation :=
  { book := b
  , score := 7/10 + b.popularity_score * (3/10)
  , reason := "Explore a new genre: " ++ (b.genre.filter (fun g => decide (g ∉ explored))).headD ""
      ++ ". This highly-rated book will broaden your reading horizons."
  , strategy := "diversity"
  , confidence := 3/5 }

/-- Strategy 3 inner loop of recommend: scan catalog books in order,
appending a diversity recommendation for each eligible one and breaking
as soon as the accumulated list reaches n. -/
def diversityLoop (student : Student) (n : Nat) (explored : List String) :
    List Book → List Recommendation → List Recommendation
  | [], acc => acc
  | b :: rest, acc =>
    if b.book_id ∈ student.reading_history then diversityLoop student n explored rest acc
    else
      if b.genre.filter (fun g => decide (g ∉ explored)) ≠ [] ∧
          b.reading_level = student.reading_level then
        let acc2 := acc ++ [mkDiversityRec explored b]
        if n ≤ acc2.length then acc2 else diversityLoop student n explored rest acc2
      else diversityLoop student n explored rest acc

/-- Strategy 3 of recommend, with its fewer-than-n guard. -/
def diversityPhase (catalog : List (String × Book)) (student : Student) (n : Nat)
    (acc : List Recommendation) : List Recommendation :=
  if acc.length < n then
    diversityLoop student n (exploredGenres catalog student) (catalog.map (fun p => p.2)) acc
  else acc

/-- _get_popular_books: catalog books sorted descending by popularity,
truncated to n, wrapped as popularity-strategy recommendations. -/
def getPopularBooks (st : SmartReadsRecommendationEngine) (n : Nat) : List Recommendation :=
  ((sortDescBy (fun b => b.popularity_score) (st.books_catalog.map (fun p => p.2))).take n).map
    (fun b =>
      { book := b
      , score := b.popularity_score
      , reason := "This is one of our most popular books that many students have enjoyed!"
      , strategy := "popularity"
      , confidence := 1/2 })

/-- SmartReadsRecommendationEngine.recommend, parameterized by the
content-side similarity kernel `cos` (the collaborative side reads its
stored similarity matrix). -/
def SmartReadsRecommendationEngine.recommend (cos : List ℚ → List ℚ → ℚ)
    (st : SmartReadsRecommendationEngine) (sid : String) (n : Nat) : List Recommendation :=
  match assocLookup st.students sid with
  | none => getPopularBooks st n
  | some student =>
    let collabRecs := st.collaborative_filter.recommend sid (n * 2)
    let recs1 := collabPhase st.books_catalog student collabRecs n
    let contentRecs := st.content_filter.recommend cos student st.books_catalog (n * 2)
    let recs2 := contentPhase st.books_catalog student contentRecs n recs1
    let recs3 := diversityPhase st.books_catalog student n recs2
    (sortDescBy (fun r => r.score) recs3).take n

/-! ### Analytics -/

/-- Count accumulation into an insertion-ordered association list,
modelling `defaultdict(int)` with `d[k] += 1`. -/
def bumpCount : List (String × Nat) → String → List (String × Nat)
  | [], k => [(k, 1)]
  | (k', c) :: rest, k => if k' = k then (k', c + 1) :: rest else (k', c) :: bumpCount rest k

/-- Result record of get_analytics. -/
structure AnalyticsSnapshot where
  total_students : Nat
  total_books : Nat
  total_borrowing_records : Nat
  average_books_per_student : ℚ
  genre_distribution : List (String × Nat)
  most_active_readers : List (String × Nat)
  catalog_coverage : ℚ
deriving DecidableEq

/-- SmartReadsRecommendationEngine.get_analytics. -/
def getAnalytics (st : SmartReadsRecommendationEngine) : AnalyticsSnapshot :=
  let totalStudents := st.students.length
  let totalBooks := st.books_catalog.length
  let totalBorrows := st.borrowing_records.length
  let genreDist := st.borrowing_records.foldl
    (fun d r =>
      match assocLookup st.books_catalog r.book_id with
      | some b => b.genre.foldl (fun d2 g => bumpCount d2 g) d
      | none => d)
    []
  let activity := st.borrowing_records.foldl (fun d r => bumpCount d r.student_id) []
  { total_students := totalStudents
  , total_books := totalBooks
  , total_borrowing_records := totalBorrows
  , average_books_per_student :=
      if 0 < totalStudents then (totalBorrows : ℚ) / (totalStudents : ℚ) else 0
  , genre_distribution := genreDist
  , most_active_readers :=
      (sortDescBy (fun p => (p.2 : ℚ)) activity).take 5
  , catalog_coverage :=
      if 0 < totalBooks then
        ((dedupFirst (st.borrowing_records.map (fun r => r.book_id))).length : ℚ) / (totalBooks : ℚ)
      else 0 }

/-! ### Derived boolean observations used in theorem statements -/

/-- Eligibility test of the diversity fallback, as a boolean predicate
on one catalog book. -/
def divEligible (student : Student) (explored : List String) (b : Book) : Bool :=
  decide (b.book_id ∉ student.reading_history) &&
    decide (b.genre.filter (fun g => decide (g ∉ explored)) ≠ []) &&
    decide (b.reading_level = student.reading_level)

/-- Every recommendation score lies in the unit interval. -/
def scoresInUnitRange (l : List Recommendation) : Bool :=
  l.all (fun r => decide (0 ≤ r.score) && decide (r.score ≤ 1))

/-- Scores are weakly descending along the list. -/
def scoresSortedDesc : List Recommendation → Bool
  | [] => true
  | [_] => true
  | a :: b :: rest => decide (b.score ≤ a.score) && scoresSortedDesc (b :: rest)

/-! ### Lemmas: stable descending sort -/

theorem sortDescBy_cons {β : Type} (key : β → ℚ) (x : β) (xs : List β) :
    sortDescBy key (x :: xs) = insertDesc key x (sortDescBy key xs) := rfl

theorem mem_insertDesc {β : Type} (key : β → ℚ) (x a : β) (l : List β) :
    a ∈ insertDesc key x l ↔ a = x ∨ a ∈ l := by
  induction l with
  | nil => simp [insertDesc]
  | cons y ys ih =>
    simp only [insertDesc]
    split
    · simp
    · simp only [List.mem_cons, ih]
      tauto

theorem mem_sortDescBy {β : Type} (key : β → ℚ) (a : β) (l : List β) :
    a ∈ sortDescBy key l ↔ a ∈ l := by
  induction l with
  | nil => simp [sortDescBy]
  | cons x xs ih =>
    rw [sortDescBy_cons, mem_insertDesc]
    simp [ih]

theorem length_insertDesc {β : Type} (key : β → ℚ) (x : β) (l : List β) :
    (insertDesc key x l).length = l.length + 1 := by
  induction l with
  | nil => simp [insertDesc]
  | cons y ys ih =>
    simp only [insertDesc]
    split
    · simp
    · simp [ih]

theorem length_sortDescBy {β : Type} (key : β → ℚ) (l : List β) :
    (sortDescBy key l).length = l.length := by
  induction l with
  | nil => rfl
  | cons x xs ih => rw [sortDescBy_cons, length_insertDesc, ih, List.length_cons]

theorem pairwise_insertDesc {β : Type} (key : β → ℚ) (x : β) (l : List β)
    (h : l.Pairwise (fun a b => key b ≤ key a)) :
    (insertDesc key x l).Pairwise (fun a b => key b ≤ key a) := by
  induction l with
  | nil => simp [insertDesc]
  | cons y ys ih =>
    rcases List.pairwise_cons.mp h with ⟨hy, hys⟩
    simp only [insertDesc]
    split
    · rename_i hc
      refine List.pairwise_cons.mpr ⟨?_, h⟩
      intro b hb
      rcases List.mem_cons.mp hb with rfl | hb
      · exact hc
      · exact le_trans (hy b hb) hc
    · rename_i hc
      refine List.pairwise_cons.mpr ⟨?_, ih hys⟩
      intro b hb
      rcases (mem_insertDesc key x b ys).mp hb with rfl | hb
      · exact (not_le.mp hc).le
      · exact hy b hb

theorem pairwise_sortDescBy {β : Type} (key : β → ℚ) (l : List β) :
    (sortDescBy key l).Pairwise (fun a b => key b ≤ key a) := by
  induction l with
  | nil => simp [sortDescBy]
  | cons x xs ih => exact pairwise_insertDesc key x _ ih

theorem insertDesc_of_max {β : Type} (key : β → ℚ) (x : β) (l : List β)
    (h : ∀ y ∈ l, key y ≤ key x) : insertDesc key x l = x :: l := by
  cases l with
  | nil => rfl
  | cons y ys => simp [insertDesc, h y (List.mem_cons_self y ys)]

theorem insertDesc_map_pair (g : String → ℚ) (u : String) (m : List String) :
    insertDesc (fun p => p.2) (u, g u) (m.map (fun w => (w, g w)))
      = (insertDesc g u m).map (fun w => (w, g w)) := by
  induction m with
  | nil => simp [insertDesc]
  | cons y ys ih =>
    by_cases h : g y ≤ g u
    · simp [insertDesc, h]
    · simp [insertDesc, h, ih]

theorem sortDescBy_map_pair (g : String → ℚ) (l : List String) :
    sortDescBy (fun p => p.2) (l.map (fun w => (w, g w)))
      = (sortDescBy g l).map (fun w => (w, g w)) := by
  induction l with
  | nil => rfl
  | cons x xs ih =>
    rw [List.map_cons, sortDescBy_cons, ih, sortDescBy_cons, insertDesc_map_pair]

theorem sortDescBy_strictMax (g : String → ℚ) (x : String) :
    ∀ (l : List String), x ∈ l → l.Nodup → (∀ y ∈ l, y ≠ x → g y < g x) →
      sortDescBy g l = x :: sortDescBy g (l.filter (fun y => decide (y ≠ x)))
  | [], hx, _, _ => absurd hx (List.not_mem_nil x)
  | h :: t, hx, hnd, hmax => by
    rcases List.mem_cons.mp hx with rfl | hxt
    · have hxnott : x ∉ t := (List.nodup_cons.mp hnd).1
      have hfilter : t.filter (fun y => decide (y ≠ x)) = t := by
        apply List.filter_eq_self.mpr
        intro y hy
        simp only [decide_eq_true_eq]
        exact fun e => hxnott (e ▸ hy)
      have hcons : List.filter (fun y => decide (y ≠ x)) (x :: t) = t := by
        rw [List.filter_cons, if_neg (by simp : ¬(decide (x ≠ x) = true))]
        exact hfilter
      rw [hcons, sortDescBy_cons]
      apply insertDesc_of_max
      intro y hy
      rcases eq_or_ne y x with rfl | hne
      · exact le_refl _
      · exact (hmax y (List.mem_cons_of_mem _ ((mem_sortDescBy g y t).mp hy)) hne).le
    · have hhx : h ≠ x := fun e => (List.nodup_cons.mp hnd).1 (e ▸ hxt)
      have ihs : sortDescBy g t = x :: sortDescBy g (t.filter (fun y => decide (y ≠ x))) :=
        sortDescBy_strictMax g x t hxt (List.nodup_cons.mp hnd).2
          (fun y hy hne => hmax y (List.mem_cons_of_mem _ hy) hne)
      have hcons : List.filter (fun y => decide (y ≠ x)) (h :: t)
          = h :: List.filter (fun y => decide (y ≠ x)) t := by
        rw [List.filter_cons]
        simp [hhx]
      rw [sortDescBy_cons, ihs, hcons, sortDescBy_cons]
      have hlt : g h < g x := hmax h (List.mem_cons_self h t) hhx
      simp only [insertDesc, not_le.mpr hlt, if_false]

/-! ### Lemmas: association lists and folds -/

theorem assocLookup_addTo (l : List (String × ℚ)) (k : String) (v : ℚ) (q : String) :
    assocLookup (addTo l k v) q
      = if q = k then some (((assocLookup l k).getD 0) + v) else assocLookup l q := by
  induction l with
  | nil =>
    by_cases h : k = q
    · simp [addTo, assocLookup, h]
    · simp [addTo, assocLookup, h, Ne.symm h]
  | cons p rest ih =>
    obtain ⟨a, b⟩ := p
    by_cases hak : a = k
    · subst hak
      by_cases hq : a = q
      · subst hq
        simp [addTo, assocLookup]
      · simp [addTo, assocLookup, hq, Ne.symm hq]
    · by_cases hq : a = q
      · subst hq
        simp [addTo, assocLookup, hak, Ne.symm hak]
      · simp [addTo, assocLookup, hak, hq, ih]

theorem addTo_nonneg (l : List (String × ℚ)) (k : String) (v : ℚ)
    (hl : ∀ q ∈ l, 0 ≤ q.2) (hv : 0 ≤ v) : ∀ p ∈ addTo l k v, 0 ≤ p.2 := by
  induction l with
  | nil =>
    intro p hp
    simp only [addTo, List.mem_singleton] at hp
    subst hp
    exact hv
  | cons q rest ih =>
    obtain ⟨a, b⟩ := q
    intro p hp
    simp only [addTo] at hp
    split at hp
    · rcases List.mem_cons.mp hp with rfl | hp
      · exact add_nonneg (hl (a, b) (List.mem_cons_self _ _)) hv
      · exact hl p (List.mem_cons_of_mem _ hp)
    · rcases List.mem_cons.mp hp with rfl | hp
      · exact hl (a, b) (List.mem_cons_self _ _)
      · exact ih (fun r hr => hl r (List.mem_cons_of_mem _ hr)) p hp

theorem addTo_keys (P : String → Prop) (l : List (String × ℚ)) (k : String) (v : ℚ)
    (hl : ∀ q ∈ l, P q.1) (hk : P k) : ∀ p ∈ addTo l k v, P p.1 := by
  induction l with
  | nil =>
    intro p hp
    simp only [addTo, List.mem_singleton] at hp
    subst hp
    exact hk
  | cons q rest ih =>
    obtain ⟨a, b⟩ := q
    intro p hp
    simp only [addTo] at hp
    split at hp
    · rcases List.mem_cons.mp hp with rfl | hp
      · exact hl (a, b) (List.mem_cons_self _ _)
      · exact hl p (List.mem_cons_of_mem _ hp)
    · rcases List.mem_cons.mp hp with rfl | hp
      · exact hl (a, b) (List.mem_cons_self _ _)
      · exact ih (fun r hr => hl r (List.mem_cons_of_mem _ hr)) p hp

theorem foldl_mem_or {γ δ : Type} (f : List γ → δ → List γ) (Q : γ → Prop) :
    ∀ (l : List δ), (∀ acc, ∀ x ∈ l, ∀ r ∈ f acc x, r ∈ acc ∨ Q r) →
      ∀ acc r, r ∈ l.foldl f acc → r ∈ acc ∨ Q r
  | [], _, _, _, hr => Or.inl hr
  | x :: rest, hf, acc, r, hr => by
    rcases foldl_mem_or f Q rest
        (fun acc2 y hy => hf acc2 y (List.mem_cons_of_mem x hy)) (f acc x) r hr with h | h
    · exact hf acc x (List.mem_cons_self x rest) r h
    · exact Or.inr h

theorem foldl_lastUpd {α : Type} (p : α → Prop) [DecidablePred p] :
    ∀ (l : List α) (o : Option α),
      l.foldl (fun acc x => if p x then some x else acc) o
        = (l.foldl (fun acc x => if p x then some x else acc) none).elim o some
  | [], o => rfl
  | x :: rest, o => by
    simp only [List.foldl_cons]
    rw [foldl_lastUpd p rest (if p x then some x else o),
        foldl_lastUpd p rest (if p x then some x else none)]
    cases hfold : rest.foldl (fun acc x => if p x then some x else acc) none with
    | some y => simp [Option.elim]
    | none => by_cases hx : p x <;> simp [Option.elim, hx]

theorem assocLookup_dictInsert {α : Type} (l : List (String × α)) (k : String) (v : α)
    (q : String) :
    assocLookup (dictInsert l k v) q = if k = q then some v else assocLookup l q := by
  induction l with
  | nil =>
    by_cases h : k = q
    · simp [dictInsert, assocLookup, h]
    · simp [dictInsert, assocLookup, h]
  | cons p rest ih =>
    obtain ⟨a, b⟩ := p
    by_cases hak : a = k
    · subst hak
      by_cases hq : a = q
      · subst hq
        simp [dictInsert, assocLookup]
      · simp [dictInsert, assocLookup, hq]
    · by_cases hq : a = q
      · subst hq
        simp [dictInsert, assocLookup, hak, Ne.symm hak]
      · simp [dictInsert, assocLookup, hak, hq, ih]

theorem assocLookup_foldl_dictInsert {α : Type} (key : α → String) :
    ∀ (l : List α) (d : List (String × α)) (q : String),
      assocLookup (l.foldl (fun d2 x => dictInsert d2 (key x) x) d) q
        = (lastWithKey key l q).elim (assocLookup d q) some
  | [], _, _ => rfl
  | x :: rest, d, q => by
    simp only [List.foldl_cons, lastWithKey]
    rw [assocLookup_foldl_dictInsert key rest (dictInsert d (key x) x) q]
    have hshift := foldl_lastUpd (fun a => key a = q) rest (if key x = q then some x else none)
    simp only at hshift
    rw [hshift]
    cases hfold : rest.foldl (fun o a => if key a = q then some a else o) none with
    | some y => simp [lastWithKey, hfold, Option.elim]
    | none =>
      simp only [lastWithKey, hfold, Option.elim]
      by_cases hx : key x = q
      · simp [hx, assocLookup_dictInsert]
      · simp [hx, assocLookup_dictInsert]

theorem mem_dedupFirst (a : String) (l : List String) : a ∈ dedupFirst l ↔ a ∈ l := by
  induction l with
  | nil => simp [dedupFirst]
  | cons x xs ih =>
    by_cases hax : a = x
    · subst hax
      simp [dedupFirst]
    · simp [dedupFirst, List.mem_filter, hax, ih]

theorem nodup_dedupFirst (l : List String) : (dedupFirst l).Nodup := by
  induction l with
  | nil => simp [dedupFirst]
  | cons x xs ih =>
    simp only [dedupFirst]
    refine List.nodup_cons.mpr ⟨?_, ih.filter _⟩
    intro hmem
    rcases List.mem_filter.mp hmem with ⟨_, hne⟩
    simp at hne

theorem sumQ_nonneg (l : List ℚ) (h : ∀ x ∈ l, 0 ≤ x) : 0 ≤ sumQ l := by
  induction l with
  | nil => simp [sumQ]
  | cons x xs ih =>
    have : sumQ (x :: xs) = x + sumQ xs := rfl
    rw [this]
    exact add_nonneg (h x (List.mem_cons_self _ _))
      (ih (fun y hy => h y (List.mem_cons_of_mem _ hy)))

theorem init_le_foldl_max : ∀ (l : List Nat) (i : Nat), i ≤ l.foldl max i
  | [], _ => le_refl _
  | x :: xs, i =>
    le_trans (le_max_left i x) (init_le_foldl_max xs (max i x))

theorem le_foldl_max : ∀ (l : List Nat) (i a : Nat), a ∈ l → a ≤ l.foldl max i
  | [], _, _, ha => absurd ha (List.not_mem_nil _)
  | x :: xs, i, a, ha => by
    rcases List.mem_cons.mp ha with rfl | ha
    · exact le_trans (le_max_right i a) (init_le_foldl_max xs (max i a))
    · exact le_foldl_max xs (max i x) a ha

theorem assocLookup_mem {α : Type} :
    ∀ (l : List (String × α)) (k : String) (v : α), assocLookup l k = some v → (k, v) ∈ l
  | [], _, _, h => by simp [assocLookup] at h
  | (a, b) :: rest, k, v, h => by
    simp only [assocLookup] at h
    split at h
    · rename_i heq
      subst heq
      cases h
      exact List.mem_cons_self _ _
    · exact List.mem_cons_of_mem _ (assocLookup_mem rest k v h)

/-! ### Lemmas: collaborative accumulation -/

theorem neighborScan_cons (m : UserItemMatrix) (sm : SimMatrix) (sid u c : String)
    (rest : List String) (acc : List (String × ℚ)) :
    neighborScan m sm sid u (c :: rest) acc
      = neighborScan m sm sid u rest
          (if 0 < m.entry u c then
            (if m.entry sid c = 0 then addTo acc c (m.entry u c * sm.sim sid u) else acc)
          else acc) := rfl

theorem assocLookup_neighborScan (m : UserItemMatrix) (sm : SimMatrix) (sid u b : String) :
    ∀ (books : List String) (acc : List (String × ℚ)), books.Nodup →
      assocLookup (neighborScan m sm sid u books acc) b
        = if b ∈ books ∧ 0 < m.entry u b ∧ m.entry sid b = 0 then
            some ((assocLookup acc b).getD 0 + m.entry u b * sm.sim sid u)
          else assocLookup acc b
  | [], acc, _ => by simp [neighborScan]
  | c :: rest, acc, hnd => by
    have hcrest : c ∉ rest := (List.nodup_cons.mp hnd).1
    have hrest : rest.Nodup := (List.nodup_cons.mp hnd).2
    rw [neighborScan_cons, assocLookup_neighborScan m sm sid u b rest _ hrest]
    by_cases hbc : b = c
    · subst hbc
      have hbnotrest : b ∉ rest := hcrest
      rw [if_neg (fun hcon => hbnotrest hcon.1)]
      by_cases h1 : 0 < m.entry u b
      · by_cases h2 : m.entry sid b = 0
        · rw [if_pos h1, if_pos h2, if_pos ⟨List.mem_cons_self b rest, h1, h2⟩,
            assocLookup_addTo, if_pos rfl]
        · rw [if_pos h1, if_neg h2,
            if_neg (fun hcon => h2 hcon.2.2)]
      · rw [if_neg h1, if_neg (fun hcon => h1 hcon.2.1)]
    · have hmem : (b ∈ c :: rest ∧ 0 < m.entry u b ∧ m.entry sid b = 0)
          ↔ (b ∈ rest ∧ 0 < m.entry u b ∧ m.entry sid b = 0) := by
        constructor
        · rintro ⟨hm, h1, h2⟩
          rcases List.mem_cons.mp hm with rfl | hm
          · exact absurd rfl hbc
          · exact ⟨hm, h1, h2⟩
        · rintro ⟨hm, h1, h2⟩
          exact ⟨List.mem_cons_of_mem _ hm, h1, h2⟩
      have hstep : assocLookup
          (if 0 < m.entry u c then
            (if m.entry sid c = 0 then addTo acc c (m.entry u c * sm.sim sid u) else acc)
          else acc) b = assocLookup acc b := by
        by_cases h1 : 0 < m.entry u c
        · by_cases h2 : m.entry sid c = 0
          · rw [if_pos h1, if_pos h2, assocLookup_addTo, if_neg hbc]
          · rw [if_pos h1, if_neg h2]
        · rw [if_neg h1]
      rw [hstep]
      by_cases hfull : b ∈ rest ∧ 0 < m.entry u b ∧ m.entry sid b = 0
      · rw [if_pos hfull, if_pos (hmem.mpr hfull)]
      · rw [if_neg hfull, if_neg (fun hcon => hfull (hmem.mp hcon))]

theorem specNeighborContributions_cons (m : UserItemMatrix) (sm : SimMatrix) (sid b u : String)
    (rest : List String) :
    specNeighborContributions m sm sid b (u :: rest)
      = if 0 < m.entry u b ∧ m.entry sid b = 0 then
          (m.entry u b * sm.sim sid u) :: specNeighborContributions m sm sid b rest
        else specNeighborContributions m sm sid b rest := by
  simp only [specNeighborContributions, List.filterMap_cons]
  by_cases h : 0 < m.entry u b ∧ m.entry sid b = 0
  · rw [if_pos h, if_pos h]
  · rw [if_neg h, if_neg h]

theorem assocLookup_scanFold (m : UserItemMatrix) (sm : SimMatrix) (sid b : String)
    (hnd : m.bookIds.Nodup) (hb : b ∈ m.bookIds) :
    ∀ (ns : List String) (acc : List (String × ℚ)),
      assocLookup (ns.foldl (fun acc2 u => neighborScan m sm sid u m.bookIds acc2) acc) b
        = if specNeighborContributions m sm sid b ns = [] then assocLookup acc b
          else some ((assocLookup acc b).getD 0 + sumQ (specNeighborContributions m sm sid b ns))
  | [], acc => by simp [specNeighborContributions]
  | u :: rest, acc => by
    rw [show (u :: rest).foldl (fun acc2 u2 => neighborScan m sm sid u2 m.bookIds acc2) acc
        = rest.foldl (fun acc2 u2 => neighborScan m sm sid u2 m.bookIds acc2)
            (neighborScan m sm sid u m.bookIds acc) from rfl,
      assocLookup_scanFold m sm sid b hnd hb rest _,
      specNeighborContributions_cons, assocLookup_neighborScan m sm sid u b m.bookIds acc hnd]
    by_cases hPu : 0 < m.entry u b ∧ m.entry sid b = 0
    · by_cases hrest : specNeighborContributions m sm sid b rest = []
      · simp [hPu.1, hPu.2, hb, hrest, sumQ]
      · simp [hPu.1, hPu.2, hb, hrest, sumQ, add_assoc]
    · simp [hPu, hb]

theorem assocLookup_collabAccumulate (m : UserItemMatrix) (sm : SimMatrix) (sid b : String)
    (hnd : m.bookIds.Nodup) (hb : b ∈ m.bookIds) (neighbors : List String) :
    assocLookup (collabAccumulate m sm sid neighbors) b
      = if specNeighborContributions m sm sid b neighbors = [] then none
        else some (sumQ (specNeighborContributions m sm sid b neighbors)) := by
  rw [collabAccumulate, assocLookup_scanFold m sm sid b hnd hb neighbors []]
  by_cases h : specNeighborContributions m sm sid b neighbors = []
  · rw [if_pos h, if_pos h]
    rfl
  · rw [if_neg h, if_neg h]
    have : assocLookup ([] : List (String × ℚ)) b = none := rfl
    rw [this]
    simp

theorem neighborScan_keyZero (m : UserItemMatrix) (sm : SimMatrix) (sid u : String) :
    ∀ (books : List String) (acc : List (String × ℚ)),
      (∀ q ∈ acc, m.entry sid q.1 = 0) →
      ∀ p ∈ neighborScan m sm sid u books acc, m.entry sid p.1 = 0
  | [], acc, hacc => hacc
  | c :: rest, acc, hacc => by
    rw [neighborScan_cons]
    apply neighborScan_keyZero m sm sid u rest
    by_cases h1 : 0 < m.entry u c
    · by_cases h2 : m.entry sid c = 0
      · rw [if_pos h1, if_pos h2]
        exact addTo_keys (fun s => m.entry sid s = 0) acc c _ hacc h2
      · rw [if_pos h1, if_neg h2]
        exact hacc
    · rw [if_neg h1]
      exact hacc

theorem collabAccumulate_keyZero (m : UserItemMatrix) (sm : SimMatrix) (sid : String)
    (neighbors : List String) : ∀ p ∈ collabAccumulate m sm sid neighbors, m.entry sid p.1 = 0 := by
  rw [collabAccumulate]
  have general : ∀ (ns : List String) (acc : List (String × ℚ)),
      (∀ q ∈ acc, m.entry sid q.1 = 0) →
      ∀ p ∈ ns.foldl (fun acc2 u => neighborScan m sm sid u m.bookIds acc2) acc,
        m.entry sid p.1 = 0 := by
    intro ns
    induction ns with
    | nil => exact fun acc hacc => hacc
    | cons u rest ih =>
      intro acc hacc
      simp only [List.foldl_cons]
      exact ih _ (neighborScan_keyZero m sm sid u m.bookIds acc hacc)
  exact general neighbors [] (by simp)

theorem neighborScan_nonneg (m : UserItemMatrix) (sm : SimMatrix) (sid u : String)
    (hm : ∀ u2 b2, 0 ≤ m.entry u2 b2) (hs : ∀ u2 v2, 0 ≤ sm.sim u2 v2) :
    ∀ (books : List String) (acc : List (String × ℚ)),
      (∀ q ∈ acc, 0 ≤ q.2) →
      ∀ p ∈ neighborScan m sm sid u books acc, 0 ≤ p.2
  | [], acc, hacc => hacc
  | c :: rest, acc, hacc => by
    rw [neighborScan_cons]
    apply neighborScan_nonneg m sm sid u hm hs rest
    by_cases h1 : 0 < m.entry u c
    · by_cases h2 : m.entry sid c = 0
      · rw [if_pos h1, if_pos h2]
        exact addTo_nonneg acc c _ hacc (mul_nonneg (hm u c) (hs sid u))
      · rw [if_pos h1, if_neg h2]
        exact hacc
    · rw [if_neg h1]
      exact hacc

theorem collabAccumulate_nonneg (m : UserItemMatrix) (sm : SimMatrix) (sid : String)
    (hm : ∀ u2 b2, 0 ≤ m.entry u2 b2) (hs : ∀ u2 v2, 0 ≤ sm.sim u2 v2)
    (neighbors : List String) : ∀ p ∈ collabAccumulate m sm sid neighbors, 0 ≤ p.2 := by
  rw [collabAccumulate]
  have general : ∀ (ns : List String) (acc : List (String × ℚ)),
      (∀ q ∈ acc, 0 ≤ q.2) →
      ∀ p ∈ ns.foldl (fun acc2 u => neighborScan m sm sid u m.bookIds acc2) acc, 0 ≤ p.2 := by
    intro ns
    induction ns with
    | nil => exact fun acc hacc => hacc
    | cons u rest ih =>
      intro acc hacc
      simp only [List.foldl_cons]
      exact ih _ (neighborScan_nonneg m sm sid u hm hs m.bookIds acc hacc)
  exact general neighbors [] (by simp)

/-! ### Lemmas: diversity fallback -/

theorem divEligible_iff (student : Student) (explored : List String) (b : Book) :
    divEligible student explored b = true ↔
      b.book_id ∉ student.reading_history ∧
        b.genre.filter (fun g => decide (g ∉ explored)) ≠ [] ∧
        b.reading_level = student.reading_level := by
  simp [divEligible, and_assoc]

theorem diversityLoop_eq (student : Student) (n : Nat) (explored : List String) :
    ∀ (books : List Book) (acc : List Recommendation), acc.length < n →
      diversityLoop student n explored books acc
        = acc ++ ((books.filter (divEligible student explored)).map
            (mkDiversityRec explored)).take (n - acc.length)
  | [], acc, _ => by simp [diversityLoop]
  | b :: rest, acc, hlen => by
    simp only [diversityLoop]
    by_cases hhist : b.book_id ∈ student.reading_history
    · rw [if_pos hhist]
      have hel : ¬(divEligible student explored b = true) := by
        rw [divEligible_iff]
        exact fun hcon => hcon.1 hhist
      rw [List.filter_cons_of_neg hel]
      exact diversityLoop_eq student n explored rest acc hlen
    · rw [if_neg hhist]
      by_cases hcond : b.genre.filter (fun g => decide (g ∉ explored)) ≠ [] ∧
          b.reading_level = student.reading_level
      · rw [if_pos hcond]
        have hel : divEligible student explored b = true :=
          (divEligible_iff student explored b).mpr ⟨hhist, hcond.1, hcond.2⟩
        rw [List.filter_cons_of_pos hel, List.map_cons]
        by_cases hstop : n ≤ (acc ++ [mkDiversityRec explored b]).length
        · rw [if_pos hstop]
          have hone : n - acc.length = 1 := by
            rw [List.length_append, List.length_singleton] at hstop
            omega
          rw [hone]
          have htake : (mkDiversityRec explored b ::
              ((rest.filter (divEligible student explored)).map (mkDiversityRec explored))).take 1
              = [mkDiversityRec explored b] := by
            rw [show (1 : Nat) = 0 + 1 from rfl, List.take_succ_cons, List.take_zero]
          rw [htake]
        · rw [if_neg hstop]
          have hlen2 : (acc ++ [mkDiversityRec explored b]).length < n := not_le.mp hstop
          rw [diversityLoop_eq student n explored rest _ hlen2]
          have harith : n - acc.length = (n - (acc ++ [mkDiversityRec explored b]).length) + 1 := by
            rw [List.length_append, List.length_singleton]
            rw [List.length_append, List.length_singleton] at hlen2
            omega
          rw [harith, List.take_succ_cons, List.append_assoc]
          rfl
      · rw [if_neg hcond]
        have hel : ¬(divEligible student explored b = true) := by
          rw [divEligible_iff]
          exact fun hcon => hcond ⟨hcon.2.1, hcon.2.2⟩
        rw [List.filter_cons_of_neg hel]
        exact diversityLoop_eq student n explored rest acc hlen

theorem diversityLoop_mem (student : Student) (n : Nat) (explored : List String) :
    ∀ (books : List Book) (acc : List Recommendation),
      ∀ r ∈ diversityLoop student n explored books acc,
        r ∈ acc ∨ ∃ b ∈ books, r = mkDiversityRec explored b
  | [], _, r, hr => Or.inl hr
  | b :: rest, acc, r, hr => by
    simp only [diversityLoop] at hr
    split at hr
    · rcases diversityLoop_mem student n explored rest acc r hr with h | ⟨b2, hb2, he⟩
      · exact Or.inl h
      · exact Or.inr ⟨b2, List.mem_cons_of_mem _ hb2, he⟩
    · split at hr
      · split at hr
        · rcases List.mem_append.mp hr with h | h
          · exact Or.inl h
          · exact Or.inr ⟨b, List.mem_cons_self _ _, List.mem_singleton.mp h⟩
        · rcases diversityLoop_mem student n explored rest _ r hr with h | ⟨b2, hb2, he⟩
          · rcases List.mem_append.mp h with h2 | h2
            · exact Or.inl h2
            · exact Or.inr ⟨b, List.mem_cons_self _ _, List.mem_singleton.mp h2⟩
          · exact Or.inr ⟨b2, List.mem_cons_of_mem _ hb2, he⟩
      · rcases diversityLoop_mem student n explored rest acc r hr with h | ⟨b2, hb2, he⟩
        · exact Or.inl h
        · exact Or.inr ⟨b2, List.mem_cons_of_mem _ hb2, he⟩

/-! ### Lemmas: user-item matrix construction and popularity -/

theorem matrixEntry_fold_aux (s b : String) :
    ∀ (records : List BorrowingRecord) (f0 : String → String → ℚ),
      records.foldl
          (fun f r => fun s2 b2 =>
            if s2 = r.student_id ∧ b2 = r.book_id then recordValue r else f s2 b2) f0 s b
        = (lastRecordFor records s b).elim (f0 s b) recordValue
  | [], _ => rfl
  | r :: rest, f0 => by
    simp only [List.foldl_cons, lastRecordFor]
    rw [matrixEntry_fold_aux s b rest _]
    have hshift := foldl_lastUpd (fun r2 => s = r2.student_id ∧ b = r2.book_id) rest
      (if s = r.student_id ∧ b = r.book_id then some r else none)
    simp only at hshift
    rw [hshift]
    cases hfold : rest.foldl
        (fun o r2 => if s = r2.student_id ∧ b = r2.book_id then some r2 else o) none with
    | some y => simp [lastRecordFor, hfold, Option.elim]
    | none =>
      simp only [lastRecordFor, hfold, Option.elim]
      by_cases hc : s = r.student_id ∧ b = r.book_id
      · simp [hc]
      · simp [hc]

theorem matrixEntry_lastRecord (records : List BorrowingRecord) (s b : String) :
    matrixEntry records s b = (lastRecordFor records s b).elim 0 recordValue :=
  matrixEntry_fold_aux s b records (fun _ _ => 0)

theorem recordCount_mem (records : List BorrowingRecord) (k : String)
    (h : 0 < recordCount records k) : k ∈ records.map (fun r => r.book_id) := by
  rw [recordCount] at h
  obtain ⟨r, hr⟩ := List.exists_mem_of_length_pos h
  rcases List.mem_filter.mp hr with ⟨hmem, hpred⟩
  have he : r.book_id = k := of_decide_eq_true hpred
  exact he ▸ List.mem_map_of_mem _ hmem

theorem recordCount_le_max (records : List BorrowingRecord) (k : String)
    (h : 0 < recordCount records k) : recordCount records k ≤ maxBorrowCount records := by
  have hk := recordCount_mem records k h
  have hne : records ≠ [] := by
    intro e
    rw [e] at h
    simp [recordCount] at h
  rw [maxBorrowCount, if_neg hne]
  exact le_foldl_max _ 0 _ (List.mem_map_of_mem _ ((mem_dedupFirst k _).mpr hk))

theorem assocLookup_map_update {α : Type} (g : String → α → α) :
    ∀ (l : List (String × α)) (q : String),
      assocLookup (l.map (fun p => (p.1, g p.1 p.2))) q = (assocLookup l q).map (g q)
  | [], _ => rfl
  | (a, b) :: rest, q => by
    simp only [List.map_cons, assocLookup]
    by_cases h : a = q
    · subst h
      simp
    · simp [h, assocLookup_map_update g rest q]

theorem popularity_frac_bounds (records : List BorrowingRecord) (k : String)
    (h : 0 < recordCount records k) :
    0 < (recordCount records k : ℚ) / (maxBorrowCount records : ℚ) ∧
      (recordCount records k : ℚ) / (maxBorrowCount records : ℚ) ≤ 1 := by
  have hle := recordCount_le_max records k h
  have hmaxpos : 0 < maxBorrowCount records := lt_of_lt_of_le h hle
  constructor
  · apply div_pos
    · exact_mod_cast h
    · exact_mod_cast hmaxpos
  · rw [div_le_one (by exact_mod_cast hmaxpos)]
    exact_mod_cast hle

/-! ### Lemmas: score bounds through the pipeline -/

theorem mockLLM_score_eq (student : Student) (b : Book) (base : ℚ) :
    (mockLLMEnhancement student b base).1
      = min 1 (base + ((if matchedGenres student b ≠ [] then (1:ℚ)/10 else 0)
          + (if b.reading_level = student.reading_level then (1:ℚ)/20 else 0)
          + (if matchedInterestWords student b ≠ [] then (3:ℚ)/20 else 0))) := rfl

theorem mockLLM_boost_nonneg (student : Student) (b : Book) :
    (0:ℚ) ≤ (if matchedGenres student b ≠ [] then (1:ℚ)/10 else 0)
      + (if b.reading_level = student.reading_level then (1:ℚ)/20 else 0)
      + (if matchedInterestWords student b ≠ [] then (3:ℚ)/20 else 0) := by
  have h1 : (0:ℚ) ≤ (if matchedGenres student b ≠ [] then (1:ℚ)/10 else 0) := by
    split <;> norm_num
  have h2 : (0:ℚ) ≤ (if b.reading_level = student.reading_level then (1:ℚ)/20 else 0) := by
    split <;> norm_num
  have h3 : (0:ℚ) ≤ (if matchedInterestWords student b ≠ [] then (3:ℚ)/20 else 0) := by
    split <;> norm_num
  exact add_nonneg (add_nonneg h1 h2) h3

theorem mockLLM_bounds (student : Student) (b : Book) (base : ℚ) (h : 0 ≤ base) :
    0 ≤ (mockLLMEnhancement student b base).1 ∧ (mockLLMEnhancement student b base).1 ≤ 1 := by
  rw [mockLLM_score_eq]
  exact ⟨le_min (by norm_num) (add_nonneg h (mockLLM_boost_nonneg student b)), min_le_left _ _⟩

theorem collabRecommend_nonneg (cf : CollaborativeFilter) (sid : String) (n : Nat)
    (hm : ∀ m, cf.user_item_matrix = some m → ∀ u b, 0 ≤ m.entry u b)
    (hs : ∀ sm, cf.user_similarity_matrix = some sm → ∀ u v, 0 ≤ sm.sim u v) :
    ∀ p ∈ cf.recommend sid n, 0 ≤ p.2 := by
  intro p hp
  cases huim : cf.user_item_matrix with
  | none => simp [CollaborativeFilter.recommend, huim] at hp
  | some m =>
    by_cases hmem : sid ∈ m.userIds
    · cases husim : cf.user_similarity_matrix with
      | none => simp [CollaborativeFilter.recommend, huim, husim, hmem] at hp
      | some sm =>
        simp only [CollaborativeFilter.recommend, huim, husim, if_pos hmem] at hp
        have hp2 : p ∈ collabAccumulate m sm sid (similarUsers sm sid) :=
          (mem_sortDescBy _ p _).mp (List.take_subset _ _ hp)
        exact collabAccumulate_nonneg m sm sid (hm m huim) (hs sm husim) _ p hp2
    · simp only [CollaborativeFilter.recommend, huim, if_neg hmem] at hp
      have hp2 : p ∈ columnSums m := (mem_sortDescBy _ p _).mp (List.take_subset _ _ hp)
      rcases List.mem_map.mp hp2 with ⟨b, _, he⟩
      rw [← he]
      apply sumQ_nonneg
      intro x hx
      rcases List.mem_map.mp hx with ⟨u, _, he2⟩
      rw [← he2]
      exact hm m huim u b

theorem contentRecommend_nonneg (cos : List ℚ → List ℚ → ℚ) (cf : ContentBasedFilter)
    (student : Student) (bd : List (String × Book)) (n : Nat)
    (hcos : ∀ u v, 0 ≤ cos u v) :
    ∀ p ∈ cf.recommend cos student bd n, 0 ≤ p.2 := by
  intro p hp
  cases hfeats : cf.book_features with
  | none => simp [ContentBasedFilter.recommend, hfeats] at hp
  | some feats =>
    by_cases hhist : student.reading_history = []
    · simp [ContentBasedFilter.recommend, hfeats, hhist] at hp
    · by_cases hidx : historyIndices cf student = []
      · simp [ContentBasedFilter.recommend, hfeats, hhist, hidx] at hp
      · simp only [ContentBasedFilter.recommend, hfeats, if_neg hhist, if_neg hidx] at hp
        have hp2 := (mem_sortDescBy _ p _).mp (List.take_subset _ _ hp)
        rcases List.mem_filter.mp hp2 with ⟨hzip, _⟩
        obtain ⟨a, c⟩ := p
        have hc := (List.of_mem_zip hzip).2
        rcases List.mem_map.mp hc with ⟨v, _, he⟩
        rw [← he]
        exact hcos _ v

theorem collabPhase_bounds (catalog : List (String × Book)) (student : Student)
    (collabRecs : List (String × ℚ)) (n : Nat)
    (hrecs : ∀ p ∈ collabRecs, 0 ≤ p.2) :
    ∀ r ∈ collabPhase catalog student collabRecs n, 0 ≤ r.score ∧ r.score ≤ 1 := by
  intro r hr
  unfold collabPhase at hr
  rcases foldl_mem_or _ (fun r2 => 0 ≤ r2.score ∧ r2.score ≤ 1) (collabRecs.take (n / 2))
      (by
        intro acc x hx r2 hr2
        cases hb : assocLookup catalog x.1 with
        | none =>
          rw [hb] at hr2
          exact Or.inl hr2
        | some b =>
          rw [hb] at hr2
          rcases List.mem_append.mp hr2 with h | h
          · exact Or.inl h
          · have hxrec : 0 ≤ x.2 := hrecs x (List.take_subset _ _ hx)
            rw [List.mem_singleton.mp h]
            exact Or.inr (mockLLM_bounds student b x.2 hxrec))
      [] r hr with h | h
  · simp at h
  · exact h

theorem contentPhase_bounds (catalog : List (String × Book)) (student : Student)
    (contentRecs : List (String × ℚ)) (n : Nat) (acc0 : List Recommendation)
    (hrecs : ∀ p ∈ contentRecs, 0 ≤ p.2)
    (hacc : ∀ r ∈ acc0, 0 ≤ r.score ∧ r.score ≤ 1) :
    ∀ r ∈ contentPhase catalog student contentRecs n acc0, 0 ≤ r.score ∧ r.score ≤ 1 := by
  intro r hr
  unfold contentPhase at hr
  rcases foldl_mem_or _ (fun r2 => 0 ≤ r2.score ∧ r2.score ≤ 1) (contentRecs.take (n / 2))
      (by
        intro acc x hx r2 hr2
        cases hb : assocLookup catalog x.1 with
        | none =>
          rw [hb] at hr2
          exact Or.inl hr2
        | some b =>
          rw [hb] at hr2
          dsimp only at hr2
          by_cases hdup : (acc.any fun r3 => r3.book.book_id == x.1) = true
          · rw [if_pos hdup] at hr2
            exact Or.inl hr2
          · rw [if_neg hdup] at hr2
            rcases List.mem_append.mp hr2 with h | h
            · exact Or.inl h
            · have hxrec : 0 ≤ x.2 := hrecs x (List.take_subset _ _ hx)
              rw [List.mem_singleton.mp h]
              exact Or.inr (mockLLM_bounds student b x.2 hxrec))
      acc0 r hr with h | h
  · exact hacc r h
  · exact h

theorem mkDiversityRec_bounds (explored : List String) (b : Book)
    (hpop : 0 ≤ b.popularity_score ∧ b.popularity_score ≤ 1) :
    0 ≤ (mkDiversityRec explored b).score ∧ (mkDiversityRec explored b).score ≤ 1 := by
  have hscore : (mkDiversityRec explored b).score = 7/10 + b.popularity_score * (3/10) := rfl
  rw [hscore]
  constructor
  · nlinarith [hpop.1]
  · nlinarith [hpop.2]

theorem diversityPhase_bounds (catalog : List (String × Book)) (student : Student) (n : Nat)
    (acc : List Recommendation)
    (hcat : ∀ p ∈ catalog, 0 ≤ (p.2).popularity_score ∧ (p.2).popularity_score ≤ 1)
    (hacc : ∀ r ∈ acc, 0 ≤ r.score ∧ r.score ≤ 1) :
    ∀ r ∈ diversityPhase catalog student n acc, 0 ≤ r.score ∧ r.score ≤ 1 := by
  intro r hr
  unfold diversityPhase at hr
  split at hr
  · rcases diversityLoop_mem student n (exploredGenres catalog student)
        (catalog.map (fun p => p.2)) acc r hr with h | ⟨b, hb, he⟩
    · exact hacc r h
    · rcases List.mem_map.mp hb with ⟨p, hp, he2⟩
      rw [he]
      exact mkDiversityRec_bounds _ b (he2 ▸ hcat p hp)
  · exact hacc r hr

theorem getPopularBooks_bounds (st : SmartReadsRecommendationEngine) (n : Nat)
    (hcat : ∀ p ∈ st.books_catalog, 0 ≤ (p.2).popularity_score ∧ (p.2).popularity_score ≤ 1) :
    ∀ r ∈ getPopularBooks st n, 0 ≤ r.score ∧ r.score ≤ 1 := by
  intro r hr
  unfold getPopularBooks at hr
  rcases List.mem_map.mp hr with ⟨b, hb, he⟩
  have hb2 : b ∈ st.books_catalog.map (fun p => p.2) :=
    (mem_sortDescBy _ b _).mp (List.take_subset _ _ hb)
  rcases List.mem_map.mp hb2 with ⟨p, hp, he2⟩
  rw [← he]
  exact he2 ▸ hcat p hp

theorem engineRecommend_score_bounds (cos : List ℚ → List ℚ → ℚ)
    (st : SmartReadsRecommendationEngine) (sid : String) (n : Nat)
    (hcat : ∀ p ∈ st.books_catalog, 0 ≤ (p.2).popularity_score ∧ (p.2).popularity_score ≤ 1)
    (hm : ∀ m, st.collaborative_filter.user_item_matrix = some m → ∀ u b, 0 ≤ m.entry u b)
    (hs : ∀ sm, st.collaborative_filter.user_similarity_matrix = some sm →
      ∀ u v, 0 ≤ sm.sim u v)
    (hcos : ∀ u v, 0 ≤ cos u v) :
    ∀ r ∈ st.recommend cos sid n, 0 ≤ r.score ∧ r.score ≤ 1 := by
  intro r hr
  cases hstu : assocLookup st.students sid with
  | none =>
    simp only [SmartReadsRecommendationEngine.recommend, hstu] at hr
    exact getPopularBooks_bounds st n hcat r hr
  | some student =>
    simp only [SmartReadsRecommendationEngine.recommend, hstu] at hr
    have hr2 := (mem_sortDescBy _ r _).mp (List.take_subset _ _ hr)
    apply diversityPhase_bounds st.books_catalog student n _ hcat _ r hr2
    apply contentPhase_bounds st.books_catalog student _ n _
      (contentRecommend_nonneg cos st.content_filter student st.books_catalog (n * 2) hcos)
    apply collabPhase_bounds st.books_catalog student _ n
      (collabRecommend_nonneg st.collaborative_filter sid (n * 2) hm hs)

theorem engineRecommend_zero (cos : List ℚ → List ℚ → ℚ)
    (st : SmartReadsRecommendationEngine) (sid : String) :
    st.recommend cos sid 0 = [] := by
  cases hstu : assocLookup st.students sid with
  | none => simp [SmartReadsRecommendationEngine.recommend, hstu, getPopularBooks]
  | some student => simp [SmartReadsRecommendationEngine.recommend, hstu]

theorem engineRecommend_length (cos : List ℚ → List ℚ → ℚ)
    (st : SmartReadsRecommendationEngine) (sid : String) (n : Nat) :
    (st.recommend cos sid n).length ≤ n := by
  cases hstu : assocLookup st.students sid with
  | none =>
    simp only [SmartReadsRecommendationEngine.recommend, hstu, getPopularBooks]
    rw [List.length_map]
    exact le_trans (List.length_take_le _ _) (le_refl _)
  | some student =>
    simp only [SmartReadsRecommendationEngine.recommend, hstu]
    exact List.length_take_le _ _

/-! ### Lemmas: neighbor selection and sortedness observations -/

theorem similarUsers_strictMax (sm : SimMatrix) (sid : String)
    (h4 : sid ∈ sm.index) (h5 : sm.index.Nodup)
    (h7 : ∀ u ∈ sm.index, u ≠ sid → sm.sim u sid < sm.sim sid sid) :
    similarUsers sm sid
      = (sortDescBy (fun u => sm.sim u sid)
          (sm.index.filter (fun u => decide (u ≠ sid)))).take 5 := by
  unfold similarUsers
  rw [show (fun u => (u, sm.sim u sid)) = (fun u => (u, (fun w => sm.sim w sid) u)) from rfl,
    sortDescBy_map_pair (fun w => sm.sim w sid) sm.index,
    sortDescBy_strictMax (fun w => sm.sim w sid) sid sm.index h4 h5 h7,
    List.map_cons, show (6 : Nat) = 5 + 1 from rfl, List.take_succ_cons, List.map_cons,
    List.drop_one, List.tail_cons, List.map_take, List.map_map]
  rw [show ((fun p : String × ℚ => p.1) ∘ fun w => (w, sm.sim w sid)) = id from rfl, List.map_id]

theorem scoresSortedDesc_of_pairwise :
    ∀ (l : List Recommendation), l.Pairwise (fun a b => b.score ≤ a.score) →
      scoresSortedDesc l = true
  | [], _ => rfl
  | [_], _ => rfl
  | a :: b :: rest, h => by
    simp only [scoresSortedDesc]
    rcases List.pairwise_cons.mp h with ⟨ha, htail⟩
    rw [decide_eq_true (ha b (List.mem_cons_self _ _)),
      scoresSortedDesc_of_pairwise (b :: rest) htail]
    rfl

theorem lastRecordFor_mem_aux (s b : String) :
    ∀ (records : List BorrowingRecord) (o : Option BorrowingRecord) (r : BorrowingRecord),
      records.foldl
          (fun o2 r2 => if s = r2.student_id ∧ b = r2.book_id then some r2 else o2) o = some r →
      r ∈ records ∨ o = some r
  | [], _, _, h => Or.inr h
  | x :: rest, o, r, h => by
    rw [List.foldl_cons] at h
    rcases lastRecordFor_mem_aux s b rest _ r h with hm | he
    · exact Or.inl (List.mem_cons_of_mem _ hm)
    · by_cases hx : s = x.student_id ∧ b = x.book_id
      · rw [if_pos hx] at he
        cases he
        exact Or.inl (List.mem_cons_self _ _)
      · rw [if_neg hx] at he
        exact Or.inr he

theorem lastRecordFor_mem (records : List BorrowingRecord) (s b : String)
    (r : BorrowingRecord) (h : lastRecordFor records s b = some r) : r ∈ records := by
  rcases lastRecordFor_mem_aux s b records none r h with hm | he
  · exact hm
  · exact absurd he (by simp)

theorem matrixEntry_nonneg (records : List BorrowingRecord)
    (hrec : ∀ r ∈ records, 0 ≤ recordValue r) : ∀ u b, 0 ≤ matrixEntry records u b := by
  intro u b
  rw [matrixEntry_lastRecord]
  cases hlast : lastRecordFor records u b with
  | none => simp [Option.elim]
  | some r =>
    simp only [Option.elim]
    exact hrec r (lastRecordFor_mem records u b r hlast)

/-! ### Concrete fixtures for witnesses and counterexamples -/

/-- Similarity kernel used by the concrete scenarios: 1 on equal
vectors, 0 otherwise.  The agreement lemmas below show it coincides
with sklearn's cosine similarity (`cosineSimilarity`) on every vector
pair the scenarios feed to it (the interaction rows and columns are
exactly [1, 0] and [0, 1]). -/
def cosDelta : List ℚ → List ℚ → ℚ := fun u v => if u = v then 1 else 0

theorem cosDelta_nonneg : ∀ u v, 0 ≤ cosDelta u v := by
  intro u v
  unfold cosDelta
  split <;> norm_num

/-- Placeholder vectorizer for the fixtures.  Every scenario below
either queries an unknown user or a user with empty reading history, so
the content filter returns early and never reads the stored feature
vectors. -/
def tfidfZero : List String → List (List ℚ) := fun texts => texts.map (fun _ => [])

def bookA : Book := { book_id := "A", genre := ["Fantasy"], reading_level := "6-8" }

def bookB : Book := { book_id := "B", genre := ["Mystery"], reading_level := "3-5" }

def studentS1 : Student := { student_id := "S1", reading_level := "3-5" }

def studentS2 : Student := { student_id := "S2", reading_level := "3-5" }

def recS1A : BorrowingRecord := { student_id := "S1", book_id := "A" }

def recS2B : BorrowingRecord := { student_id := "S2", book_id := "B" }

/-- Engine state after loading a two-book catalog, two students and one
borrowing record per student. -/
def ceEngine : SmartReadsRecommendationEngine :=
  ((initialEngine.load_catalog tfidfZero [bookA, bookB]).load_students
    [studentS1, studentS2]).load_borrowing_history cosDelta [recS1A, recS2B]

/-- User-item matrix of the fixture history. -/
def ceUIM : UserItemMatrix := builtMatrix [recS1A, recS2B]

/-- User similarity matrix stored by the fixture fit. -/
def ceSM : SimMatrix :=
  { index := ceUIM.userIds
  , sim := fun u v => cosDelta (rowVector ceUIM u) (rowVector ceUIM v) }

theorem cosineSimilarity_orth : cosineSimilarity [1, 0] [0, 1] = 0 := by
  unfold cosineSimilarity
  norm_num [dotQ]

theorem cosineSimilarity_orth2 : cosineSimilarity [0, 1] [1, 0] = 0 := by
  unfold cosineSimilarity
  norm_num [dotQ]

theorem cosineSimilarity_unit1 : cosineSimilarity [1, 0] [1, 0] = 1 := by
  unfold cosineSimilarity
  norm_num [dotQ]

theorem cosineSimilarity_unit2 : cosineSimilarity [0, 1] [0, 1] = 1 := by
  unfold cosineSimilarity
  norm_num [dotQ]

/-- The delta kernel agrees with sklearn's cosine similarity on all four
vector pairs arising from the fixture's interaction matrix. -/
theorem cosDelta_agreement :
    ((cosDelta [1, 0] [1, 0] : ℚ) : ℝ) = cosineSimilarity [1, 0] [1, 0]
    ∧ ((cosDelta [0, 1] [0, 1] : ℚ) : ℝ) = cosineSimilarity [0, 1] [0, 1]
    ∧ ((cosDelta [1, 0] [0, 1] : ℚ) : ℝ) = cosineSimilarity [1, 0] [0, 1]
    ∧ ((cosDelta [0, 1] [1, 0] : ℚ) : ℝ) = cosineSimilarity [0, 1] [1, 0] := by
  rw [cosineSimilarity_orth, cosineSimilarity_orth2, cosineSimilarity_unit1,
    cosineSimilarity_unit2]
  norm_num [cosDelta]

/-! ### Claim theorems -/

/-- C10: in CollaborativeFilter.fit, when several borrowing records
share the same (student id, book id) pair, the resulting user-item
matrix cell equals the weight derived from the last such record in
input order: each record's weight overwrites, rather than accumulates
with, earlier ones (and the cell is 0 when no record carries the
pair). -/
theorem claim_C10_fit_last_write_wins (cos : List ℚ → List ℚ → ℚ) (cf : CollaborativeFilter)
    (records : List BorrowingRecord) (s b : String) :
    (cf.fit cos records).user_item_matrix = some (builtMatrix records)
    ∧ matrixEntry records s b = (lastRecordFor records s b).elim 0 recordValue :=
  ⟨rfl, matrixEntry_lastRecord records s b⟩

/-- C7: the diversity fallback runs only when fewer than n
recommendations have accumulated; it appends, in catalog first-match
order without re-sorting and stopping once the list reaches n, one
recommendation per eligible catalog book (not in the user's history,
reading-level bucket equal to the user's, at least one genre outside
the explored set), each with score 0.7 + 0.3 times the book's
popularity, strategy "diversity" and confidence 0.6. -/
theorem claim_C7_diversity_fallback (student : Student) (n : Nat)
    (catalog : List (String × Book)) (acc : List Recommendation) :
    diversityPhase catalog student n acc
      = (if acc.length < n then
          acc ++ ((((catalog.map (fun p => p.2)).filter
              (divEligible student (exploredGenres catalog student))).map
            (mkDiversityRec (exploredGenres catalog student))).take (n - acc.length))
        else acc)
    ∧ ((((catalog.map (fun p => p.2)).filter
          (divEligible student (exploredGenres catalog student))).map
        (mkDiversityRec (exploredGenres catalog student))).all
      (fun r => r.strategy == "diversity" && r.confidence == 3/5
        && r.score == 7/10 + r.book.popularity_score * (3/10)
        && decide (r.book.book_id ∉ student.reading_history)
        && decide (r.book.reading_level = student.reading_level)
        && decide (∃ g ∈ r.book.genre, g ∉ exploredGenres catalog student))) = true := by
  constructor
  · by_cases hlt : acc.length < n
    · unfold diversityPhase
      rw [if_pos hlt, if_pos hlt]
      exact diversityLoop_eq student n (exploredGenres catalog student)
        (catalog.map (fun p => p.2)) acc hlt
    · unfold diversityPhase
      rw [if_neg hlt, if_neg hlt]
  · rw [List.all_eq_true]
    intro r hr
    rcases List.mem_map.mp hr with ⟨b, hb, he⟩
    rcases List.mem_filter.mp hb with ⟨_, hel⟩
    rcases (divEligible_iff student _ b).mp hel with ⟨hh, hg, hl⟩
    have hex : ∃ g ∈ b.genre, g ∉ exploredGenres catalog student := by
      obtain ⟨g, hgmem⟩ := List.exists_mem_of_ne_nil _ hg
      rcases List.mem_filter.mp hgmem with ⟨hgg, hgp⟩
      exact ⟨g, hgg, of_decide_eq_true hgp⟩
    rw [← he]
    simp [mkDiversityRec, hh, hl, hex]

/-- C3 counterexample: loading a catalog does not replace the store;
a book loaded earlier survives a later load_catalog call whose item
list does not contain it. -/
theorem claim_C3_cex :
    assocLookup
        (((initialEngine.load_catalog tfidfZero [bookA]).load_catalog tfidfZero
          [bookB]).books_catalog) "A" = some bookA
    ∧ "A" ∉ [bookB].map (fun b => b.book_id) := by
  with_unfolding_all decide

/-- C3 amended: load_catalog and load_students merge by identifier
(an upsert: an item passed in the call overwrites the entry with its
id, all other entries survive from earlier loads), while
load_borrowing_history fully replaces the record store. -/
theorem claim_C3_loaders_upsert (tfidf : List String → List (List ℚ))
    (cos : List ℚ → List ℚ → ℚ) (st : SmartReadsRecommendationEngine)
    (books : List Book) (studs : List Student) (records : List BorrowingRecord)
    (k : String) :
    assocLookup ((st.load_catalog tfidf books).books_catalog) k
      = (lastWithKey (fun b => b.book_id) books k).elim (assocLookup st.books_catalog k) some
    ∧ assocLookup ((st.load_students studs).students) k
      = (lastWithKey (fun s => s.student_id) studs k).elim (assocLookup st.students k) some
    ∧ (st.load_borrowing_history cos records).borrowing_records = records := by
  refine ⟨?_, ?_, rfl⟩
  · exact assocLookup_foldl_dictInsert (fun b : Book => b.book_id) books st.books_catalog k
  · exact assocLookup_foldl_dictInsert (fun s : Student => s.student_id) studs st.students k

/-- C2 counterexample: the enhancer clamps at 1.0, so for a base score
above 1 the adjusted score is strictly below the base score, refuting
"adjustedScore is always greater than or equal to baseScore". -/
theorem claim_C2_cex :
    (mockLLMEnhancement studentS1 bookB 2).1 = 1
    ∧ ¬((2:ℚ) ≤ (mockLLMEnhancement studentS1 bookB 2).1) := by
  with_unfolding_all decide

/-- C2 amended: for every base score the enhancer returns min(1.0,
baseScore plus the sum of the applicable boosts: 0.10 for a
preferred-genre match, 0.05 for an equal reading-level bucket, 0.15
for an interest word occurring in the description) and the adjusted
score never exceeds 1.0; the adjusted score is greater than or equal
to baseScore whenever baseScore is at most 1.0, and for a base score
strictly above 1 the min clamps the result strictly below the base. -/
theorem claim_C2_enhancer_formula (student : Student) (b : Book) (base base2 base3 : ℚ)
    (hbase2 : base2 ≤ 1) (hbase3 : 1 < base3) :
    (mockLLMEnhancement student b base).1
      = min 1 (base + ((if ∃ g ∈ b.genre, g ∈ student.preferred_genres then (1:ℚ)/10 else 0)
          + (if b.reading_level = student.reading_level then (1:ℚ)/20 else 0)
          + (if ∃ w ∈ interestKeywords student, w ∈ descriptionWords b then (3:ℚ)/20 else 0)))
    ∧ (mockLLMEnhancement student b base).1 ≤ 1
    ∧ base2 ≤ (mockLLMEnhancement student b base2).1
    ∧ (mockLLMEnhancement student b base3).1 < base3 := by
  have hg : (matchedGenres student b ≠ []) ↔ (∃ g ∈ b.genre, g ∈ student.preferred_genres) := by
    constructor
    · intro h
      obtain ⟨g, hgmem⟩ := List.exists_mem_of_ne_nil _ h
      rcases List.mem_filter.mp hgmem with ⟨h1, h2⟩
      exact ⟨g, h1, of_decide_eq_true h2⟩
    · rintro ⟨g, h1, h2⟩
      intro hnil
      have hmem : g ∈ matchedGenres student b := List.mem_filter.mpr ⟨h1, decide_eq_true h2⟩
      rw [hnil] at hmem
      exact List.not_mem_nil g hmem
  have hi : (matchedInterestWords student b ≠ [])
      ↔ (∃ w ∈ interestKeywords student, w ∈ descriptionWords b) := by
    constructor
    · intro h
      obtain ⟨w, hwmem⟩ := List.exists_mem_of_ne_nil _ h
      rcases List.mem_filter.mp hwmem with ⟨h1, h2⟩
      exact ⟨w, h1, of_decide_eq_true h2⟩
    · rintro ⟨w, h1, h2⟩
      intro hnil
      have hmem : w ∈ matchedInterestWords student b :=
        List.mem_filter.mpr ⟨h1, decide_eq_true h2⟩
      rw [hnil] at hmem
      exact List.not_mem_nil w hmem
  refine ⟨?_, ?_, ?_, ?_⟩
  · rw [mockLLM_score_eq, if_congr hg rfl rfl, if_congr hi rfl rfl]
  · rw [mockLLM_score_eq]
    exact min_le_left _ _
  · rw [mockLLM_score_eq]
    exact le_min hbase2 (le_add_of_nonneg_right (mockLLM_boost_nonneg student b))
  · rw [mockLLM_score_eq]
    exact lt_of_le_of_lt (min_le_left _ _) hbase3

/-- C2 witness: at base score one half the adjusted score does not
decrease, and at base score two the clamp pushes it strictly below the
base. -/
theorem claim_C2_witness :
    (1:ℚ)/2 ≤ (mockLLMEnhancement studentS1 bookB (1/2)).1
    ∧ (mockLLMEnhancement studentS1 bookB 2).1 < 2 :=
  ⟨(claim_C2_enhancer_formula studentS1 bookB 2 (1/2) 2 (by norm_num) (by norm_num)).2.2.1,
    (claim_C2_enhancer_formula studentS1 bookB 2 (1/2) 2 (by norm_num) (by norm_num)).2.2.2⟩

/-- Record fixtures for the analytics and popularity counterexamples. -/
def recU1X : BorrowingRecord := { student_id := "U1", book_id := "X" }

def recU1Y : BorrowingRecord := { student_id := "U1", book_id := "Y" }

/-- Engine state whose second history load mentions only book B, after a
first load that gave book A a popularity of 1. -/
def c4Engine : SmartReadsRecommendationEngine :=
  ((initialEngine.load_catalog tfidfZero [bookA, bookB]).load_borrowing_history cosDelta
    [recS1A]).load_borrowing_history cosDelta [recS2B]

/-- C4 counterexample: after reloading history with records that never
mention book A, book A keeps its stale popularity 1 instead of the 0
the claim requires for an item with no interaction in the currently
loaded history. -/
theorem claim_C4_cex :
    c4Engine.borrowing_records = [recS2B]
    ∧ recordCount [recS2B] "A" = 0
    ∧ (assocLookup c4Engine.books_catalog "A").map (fun b => b.popularity_score) = some 1
    ∧ ¬((1:ℚ) = 0) := by
  with_unfolding_all decide

/-- C4 amended: loading history recomputes the popularity of every
catalog item with at least one interaction in the loaded records as
its interaction count divided by the maximum interaction count, a value
in (0, 1]; a catalog item with no interaction in the loaded records
keeps its previous popularity score unchanged (it is not reset to 0). -/
theorem claim_C4_popularity_update (cos : List ℚ → List ℚ → ℚ)
    (st : SmartReadsRecommendationEngine) (records : List BorrowingRecord)
    (k : String) (b : Book) (hlook : assocLookup st.books_catalog k = some b)
    (hpos : 0 < recordCount records k)
    (st2 : SmartReadsRecommendationEngine) (records2 : List BorrowingRecord)
    (k2 : String) (b2 : Book) (hlook2 : assocLookup st2.books_catalog k2 = some b2)
    (hzero : recordCount records2 k2 = 0) :
    assocLookup ((st.load_borrowing_history cos records).books_catalog) k
      = some { b with popularity_score :=
          (recordCount records k : ℚ) / (maxBorrowCount records : ℚ) }
    ∧ 0 < (recordCount records k : ℚ) / (maxBorrowCount records : ℚ)
    ∧ (recordCount records k : ℚ) / (maxBorrowCount records : ℚ) ≤ 1
    ∧ assocLookup ((st2.load_borrowing_history cos records2).books_catalog) k2 = some b2 := by
  refine ⟨?_, (popularity_frac_bounds records k hpos).1,
    (popularity_frac_bounds records k hpos).2, ?_⟩
  · have hmap := assocLookup_map_update (updatePopularity records) st.books_catalog k
    rw [show ((st.load_borrowing_history cos records).books_catalog)
        = st.books_catalog.map (fun p => (p.1, updatePopularity records p.1 p.2)) from rfl,
      hmap, hlook,
      show Option.map (updatePopularity records k) (some b)
        = some (updatePopularity records k b) from rfl]
    unfold updatePopularity
    rw [if_pos hpos]
  · have hmap := assocLookup_map_update (updatePopularity records2) st2.books_catalog k2
    rw [show ((st2.load_borrowing_history cos records2).books_catalog)
        = st2.books_catalog.map (fun p => (p.1, updatePopularity records2 p.1 p.2)) from rfl,
      hmap, hlook2,
      show Option.map (updatePopularity records2 k2) (some b2)
        = some (updatePopularity records2 k2 b2) from rfl]
    unfold updatePopularity
    rw [if_neg (by rw [hzero]; exact lt_irrefl 0)]

/-- C4 witness: a first history load gives book A popularity count over
max count while leaving the untouched book B at its prior score. -/
theorem claim_C4_witness :
    assocLookup (((initialEngine.load_catalog tfidfZero
          [bookA, bookB]).load_borrowing_history cosDelta [recS1A]).books_catalog) "A"
      = some { bookA with popularity_score :=
          (recordCount [recS1A] "A" : ℚ) / (maxBorrowCount [recS1A] : ℚ) } :=
  (claim_C4_popularity_update cosDelta
    (initialEngine.load_catalog tfidfZero [bookA, bookB]) [recS1A] "A" bookA
    (by with_unfolding_all decide) (by with_unfolding_all decide)
    (initialEngine.load_catalog tfidfZero [bookA, bookB]) [recS1A] "B" bookB
    (by with_unfolding_all decide) (by with_unfolding_all decide)).1

/-- Engine state whose history references two book ids absent from the
one-book catalog. -/
def c9Engine : SmartReadsRecommendationEngine :=
  (initialEngine.load_catalog tfidfZero [bookA]).load_borrowing_history cosDelta
    [recU1X, recU1Y]

/-- C9 counterexample: catalogCoverage counts distinct interacted item
ids that need not be in the catalog, so with two foreign ids over a
one-book catalog it evaluates to 2, outside [0, 1]. -/
theorem claim_C9_cex :
    (getAnalytics c9Engine).catalog_coverage = 2
    ∧ ¬((getAnalytics c9Engine).catalog_coverage ≤ 1) := by
  with_unfolding_all decide

/-- C9 amended: on every engine state, averageInteractionsPerUser
equals totalInteractions over totalUsers (exactly 0 for zero users)
and is nonnegative, and catalogCoverage equals the number of distinct
item ids appearing in any interaction divided by totalItems (exactly 0
for zero items) and is nonnegative; catalogCoverage is at most 1 on
the states whose interacted item ids are all present in the catalog
(history referencing foreign ids can push it above 1). -/
theorem claim_C9_analytics_ratios (st st2 : SmartReadsRecommendationEngine)
    (hcov : ∀ r ∈ st2.borrowing_records, r.book_id ∈ st2.books_catalog.map Prod.fst) :
    (getAnalytics st).average_books_per_student
      = (if 0 < st.students.length then
          (st.borrowing_records.length : ℚ) / (st.students.length : ℚ) else 0)
    ∧ (getAnalytics st).catalog_coverage
      = (if 0 < st.books_catalog.length then
          ((dedupFirst (st.borrowing_records.map (fun r => r.book_id))).length : ℚ)
            / (st.books_catalog.length : ℚ) else 0)
    ∧ 0 ≤ (getAnalytics st).average_books_per_student
    ∧ 0 ≤ (getAnalytics st).catalog_coverage
    ∧ (getAnalytics st2).catalog_coverage ≤ 1 := by
  refine ⟨rfl, rfl, ?_, ?_, ?_⟩
  · rw [show (getAnalytics st).average_books_per_student
        = (if 0 < st.students.length then
            (st.borrowing_records.length : ℚ) / (st.students.length : ℚ) else 0) from rfl]
    split
    · positivity
    · exact le_refl 0
  · rw [show (getAnalytics st).catalog_coverage
        = (if 0 < st.books_catalog.length then
            ((dedupFirst (st.borrowing_records.map (fun r => r.book_id))).length : ℚ)
              / (st.books_catalog.length : ℚ) else 0) from rfl]
    split
    · positivity
    · exact le_refl 0
  · rw [show (getAnalytics st2).catalog_coverage
        = (if 0 < st2.books_catalog.length then
            ((dedupFirst (st2.borrowing_records.map (fun r => r.book_id))).length : ℚ)
              / (st2.books_catalog.length : ℚ) else 0) from rfl]
    split
    · rename_i hpos
      rw [div_le_one (by exact_mod_cast hpos)]
      have hnd := nodup_dedupFirst (st2.borrowing_records.map (fun r => r.book_id))
      have hsub : dedupFirst (st2.borrowing_records.map (fun r => r.book_id))
          ⊆ st2.books_catalog.map Prod.fst := by
        intro a ha
        rcases List.mem_map.mp ((mem_dedupFirst a _).mp ha) with ⟨r, hrmem, he⟩
        exact he ▸ hcov r hrmem
      have hlen := (List.subperm_of_subset hnd hsub).length_le
      rw [List.length_map] at hlen
      exact_mod_cast hlen
    · norm_num

/-- C9 witness: the unconditional ratio facts hold even on the
foreign-id state whose coverage exceeds 1, and on the two-student
fixture, whose interacted ids are all in the catalog, coverage stays
within the unit interval. -/
theorem claim_C9_witness :
    0 ≤ (getAnalytics c9Engine).catalog_coverage
    ∧ (getAnalytics ceEngine).catalog_coverage ≤ 1 :=
  ⟨(claim_C9_analytics_ratios c9Engine ceEngine (by with_unfolding_all decide)).2.2.2.1,
    (claim_C9_analytics_ratios c9Engine ceEngine (by with_unfolding_all decide)).2.2.2.2⟩

/-- C6: for a student id not present in the user store, recommend is
not an error: it returns the top-n catalog items sorted by popularity
score descending, each tagged strategy "popularity" with score equal to
the item's popularity score and confidence fixed at 0.5. -/
theorem claim_C6_unknown_user_popularity (cos : List ℚ → List ℚ → ℚ)
    (st : SmartReadsRecommendationEngine) (sid : String) (n : Nat)
    (hstu : assocLookup st.students sid = none) :
    st.recommend cos sid n
      = ((sortDescBy (fun b => b.popularity_score)
            (st.books_catalog.map (fun p => p.2))).take n).map
          (fun b =>
            { book := b
            , score := b.popularity_score
            , reason := "This is one of our most popular books that many students have enjoyed!"
            , strategy := "popularity"
            , confidence := 1/2 })
    ∧ scoresSortedDesc (st.recommend cos sid n) = true
    ∧ (st.recommend cos sid n).all (fun r => r.strategy == "popularity"
        && r.confidence == 1/2 && r.score == r.book.popularity_score) = true
    ∧ (st.recommend cos sid n).length ≤ n := by
  have heq : st.recommend cos sid n = getPopularBooks st n := by
    simp [SmartReadsRecommendationEngine.recommend, hstu]
  refine ⟨?_, ?_, ?_, ?_⟩
  · rw [heq]
    rfl
  · rw [heq]
    apply scoresSortedDesc_of_pairwise
    unfold getPopularBooks
    rw [List.pairwise_map]
    exact List.Pairwise.sublist (List.take_sublist n _) (pairwise_sortDescBy _ _)
  · rw [heq, List.all_eq_true]
    intro r hr
    rcases List.mem_map.mp hr with ⟨b, _, he⟩
    rw [← he]
    simp
  · rw [heq]
    unfold getPopularBooks
    rw [List.length_map]
    exact List.length_take_le _ _

/-- C6 witness: an unknown student id on the loaded fixture falls back
to the popularity list. -/
theorem claim_C6_witness :
    SmartReadsRecommendationEngine.recommend cosDelta ceEngine "ghost" 2
      = ((sortDescBy (fun b => b.popularity_score)
            (ceEngine.books_catalog.map (fun p => p.2))).take 2).map
          (fun b =>
            { book := b
            , score := b.popularity_score
            , reason := "This is one of our most popular books that many students have enjoyed!"
            , strategy := "popularity"
            , confidence := 1/2 }) :=
  (claim_C6_unknown_user_popularity cosDelta ceEngine "ghost" 2
    (by with_unfolding_all decide)).1

/-- Content filter fixtures for the C8 scenarios. -/
def cfNoFeatures : ContentBasedFilter := { book_features := none, book_ids := [] }

def cfTwoBooks : ContentBasedFilter := { book_features := some [[1], [0]], book_ids := ["A", "B"] }

def cfOneBook : ContentBasedFilter := { book_features := some [[1]], book_ids := ["A"] }

def studentHistA : Student := { student_id := "S9", reading_history := ["A"] }

def studentHistZ : Student := { student_id := "S8", reading_history := ["Z"] }

/-- C8: ContentBasedFilter.recommend returns the empty list when the
model was never fitted, when the user's history is empty, or when none
of the last 10 history item ids are among the fitted ids; otherwise it
averages the feature vectors of up to the last 10 fitted history items
into a profile, scores every fitted item by the similarity kernel
against that profile, excludes every id in the user's history, and
returns the top n by similarity descending (stable). -/
theorem claim_C8_content_recommend (cos : List ℚ → List ℚ → ℚ)
    (cf1 : ContentBasedFilter) (s1 : Student) (bd1 : List (String × Book)) (n1 : Nat)
    (h1 : cf1.book_features = none)
    (cf2 : ContentBasedFilter) (s2 : Student) (bd2 : List (String × Book)) (n2 : Nat)
    (h2 : s2.reading_history = [])
    (cf3 : ContentBasedFilter) (s3 : Student) (bd3 : List (String × Book)) (n3 : Nat)
    (feats3 : List (List ℚ)) (h3 : cf3.book_features = some feats3)
    (h4 : s3.reading_history ≠ []) (h5 : historyIndices cf3 s3 = [])
    (cf4 : ContentBasedFilter) (s4 : Student) (bd4 : List (String × Book)) (n4 : Nat)
    (feats4 : List (List ℚ)) (h6 : cf4.book_features = some feats4)
    (h7 : s4.reading_history ≠ []) (h8 : historyIndices cf4 s4 ≠ []) :
    cf1.recommend cos s1 bd1 n1 = []
    ∧ cf2.recommend cos s2 bd2 n2 = []
    ∧ cf3.recommend cos s3 bd3 n3 = []
    ∧ cf4.recommend cos s4 bd4 n4
        = (sortDescBy (fun p => p.2)
            ((cf4.book_ids.zip (feats4.map (fun v => cos
                (meanVec ((historyIndices cf4 s4).map (fun i => feats4.getD i []))) v))).filter
              (fun p => decide (p.1 ∉ s4.reading_history)))).take n4 := by
  refine ⟨?_, ?_, ?_, ?_⟩
  · simp [ContentBasedFilter.recommend, h1]
  · cases hf : cf2.book_features with
    | none => simp [ContentBasedFilter.recommend, hf]
    | some feats => simp [ContentBasedFilter.recommend, hf, h2]
  · simp [ContentBasedFilter.recommend, h3, h4, h5]
  · simp only [ContentBasedFilter.recommend, h6]
    rw [if_neg h7, if_neg h8]

/-- C8 witness: a fitted two-book filter and a user whose single
history item is fitted produce the profile-similarity ranking. -/
theorem claim_C8_witness :
    ContentBasedFilter.recommend cosDelta cfTwoBooks studentHistA [] 3
      = (sortDescBy (fun p => p.2)
          ((cfTwoBooks.book_ids.zip (([[1], [0]] : List (List ℚ)).map (fun v => cosDelta
              (meanVec ((historyIndices cfTwoBooks studentHistA).map
                (fun i => ([[1], [0]] : List (List ℚ)).getD i []))) v))).filter
            (fun p => decide (p.1 ∉ studentHistA.reading_history)))).take 3 :=
  (claim_C8_content_recommend cosDelta
    cfNoFeatures studentS1 [] 1 rfl
    cfTwoBooks studentS2 [] 1 rfl
    cfOneBook studentHistZ [] 1 [[1]] rfl (by with_unfolding_all decide)
      (by with_unfolding_all decide)
    cfTwoBooks studentHistA [] 3 [[1], [0]] rfl (by with_unfolding_all decide)
      (by with_unfolding_all decide)).2.2.2

/-- Collaborative filter fixture fitted on a single-user history: its
user similarity matrix stays unset. -/
def cfOneUser : CollaborativeFilter :=
  CollaborativeFilter.fit cosDelta initialEngine.collaborative_filter [recS1A]

/-- C5: for a user present in the fitted interaction matrix the
collaborative recommender consults exactly the 5 most similar other
users (self excluded, stated under the no-tie hypothesis that every
other user's similarity to the target is strictly below the target's
self-similarity, which sklearn's cosine guarantees except for users
with proportional interaction rows), accumulates for each book a
neighbor interacted with and the target did not the sum over those
neighbors of weight times sim(target, neighbor), returns the top n
accumulated books by score descending, never includes a book the
target already interacted with, and returns the empty list when no
user-similarity matrix exists. -/
theorem claim_C5_collaborative_recommend (cf : CollaborativeFilter) (sid : String) (n : Nat)
    (m : UserItemMatrix) (sm : SimMatrix)
    (h1 : cf.user_item_matrix = some m) (h2 : sid ∈ m.userIds)
    (h3 : cf.user_similarity_matrix = some sm)
    (h4 : sid ∈ sm.index) (h5 : sm.index.Nodup) (h6 : m.bookIds.Nodup)
    (h7 : ∀ u ∈ sm.index, u ≠ sid → sm.sim u sid < sm.sim sid sid)
    (cf2 : CollaborativeFilter) (sid2 : String) (n2 : Nat) (m2 : UserItemMatrix)
    (g1 : cf2.user_item_matrix = some m2) (g2 : sid2 ∈ m2.userIds)
    (g3 : cf2.user_similarity_matrix = none) :
    similarUsers sm sid
      = (sortDescBy (fun u => sm.sim u sid)
          (sm.index.filter (fun u => decide (u ≠ sid)))).take 5
    ∧ cf.recommend sid n
        = (sortDescBy (fun p => p.2)
            (collabAccumulate m sm sid (similarUsers sm sid))).take n
    ∧ (m.bookIds.all (fun b =>
          assocLookup (collabAccumulate m sm sid (similarUsers sm sid)) b
            == (if specNeighborContributions m sm sid b (similarUsers sm sid) = [] then none
                else some (sumQ (specNeighborContributions m sm sid b (similarUsers sm sid))))))
        = true
    ∧ ((cf.recommend sid n).all (fun p => m.entry sid p.1 == 0)) = true
    ∧ cf2.recommend sid2 n2 = [] := by
  have hrec : cf.recommend sid n
      = (sortDescBy (fun p => p.2) (collabAccumulate m sm sid (similarUsers sm sid))).take n := by
    simp [CollaborativeFilter.recommend, h1, h3, h2]
  refine ⟨similarUsers_strictMax sm sid h4 h5 h7, hrec, ?_, ?_, ?_⟩
  · rw [List.all_eq_true]
    intro b hb
    rw [beq_iff_eq, assocLookup_collabAccumulate m sm sid b h6 hb]
  · rw [List.all_eq_true]
    intro p hp
    rw [hrec] at hp
    rw [beq_iff_eq]
    exact collabAccumulate_keyZero m sm sid _ p
      ((mem_sortDescBy _ p _).mp (List.take_subset _ _ hp))
  · simp [CollaborativeFilter.recommend, g1, g2, g3]

/-- C5 witness: on the two-user fixture the consulted neighbor list is
exactly the top five other users. -/
theorem claim_C5_witness :
    similarUsers ceSM "S1"
      = (sortDescBy (fun u => ceSM.sim u "S1")
          (ceSM.index.filter (fun u => decide (u ≠ "S1")))).take 5 :=
  (claim_C5_collaborative_recommend ceEngine.collaborative_filter "S1" 3 ceUIM ceSM
    (by with_unfolding_all rfl) (by with_unfolding_all decide) (by with_unfolding_all rfl)
    (by with_unfolding_all decide) (by with_unfolding_all decide) (by with_unfolding_all decide)
    (by with_unfolding_all decide)
    cfOneUser "S1" 3 (builtMatrix [recS1A]) (by with_unfolding_all rfl)
    (by with_unfolding_all decide) (by with_unfolding_all rfl)).1

/-- C1 counterexample: on the fixture engine the final list for student
S1 at n = 2 carries book B twice, once from the collaborative phase and
once from the diversity fallback, refuting "no two recommendations with
the same book id". -/
theorem claim_C1_cex :
    (SmartReadsRecommendationEngine.recommend cosDelta ceEngine "S1" 2).map
        (fun r => r.book.book_id) = ["B", "B"]
    ∧ ¬((SmartReadsRecommendationEngine.recommend cosDelta ceEngine "S1" 2).map
        (fun r => r.book.book_id)).Nodup := by
  with_unfolding_all decide

/-- C1 amended: for every student id (known or unknown) and every
n ≥ 0, recommend returns at most n recommendations with every score in
[0, 1] (under the store invariants: catalog popularity scores in
[0, 1], nonnegative interaction-matrix entries and similarity values,
nonnegative similarity kernel), and n = 0 yields the empty list and
never an error; the duplicate-freeness part of the original claim is
dropped, since the diversity fallback may re-add an item already
contributed by the collaborative or content phase. -/
theorem claim_C1_recommend_bounds (cos : List ℚ → List ℚ → ℚ)
    (st : SmartReadsRecommendationEngine) (sid : String) (n : Nat)
    (hcat : ∀ p ∈ st.books_catalog, 0 ≤ (p.2).popularity_score ∧ (p.2).popularity_score ≤ 1)
    (hm : ∀ m, st.collaborative_filter.user_item_matrix = some m → ∀ u b, 0 ≤ m.entry u b)
    (hs : ∀ sm, st.collaborative_filter.user_similarity_matrix = some sm →
      ∀ u v, 0 ≤ sm.sim u v)
    (hcos : ∀ u v, 0 ≤ cos u v) :
    (st.recommend cos sid n).length ≤ n
    ∧ scoresInUnitRange (st.recommend cos sid n) = true
    ∧ st.recommend cos sid 0 = [] := by
  refine ⟨engineRecommend_length cos st sid n, ?_, engineRecommend_zero cos st sid⟩
  rw [scoresInUnitRange, List.all_eq_true]
  intro r hr
  have hb := engineRecommend_score_bounds cos st sid n hcat hm hs hcos r hr
  simp [hb.1, hb.2]

/-- C1 witness: the amended bounds hold on the fixture engine. -/
theorem claim_C1_witness :
    (SmartReadsRecommendationEngine.recommend cosDelta ceEngine "S1" 2).length ≤ 2
    ∧ scoresInUnitRange (SmartReadsRecommendationEngine.recommend cosDelta ceEngine "S1" 2)
        = true := by
  have happ := claim_C1_recommend_bounds cosDelta ceEngine "S1" 2
    (by with_unfolding_all decide)
    (by
      intro m hm2
      have h0 : ceEngine.collaborative_filter.user_item_matrix = some ceUIM := by
        with_unfolding_all rfl
      rw [h0] at hm2
      injection hm2 with he
      subst he
      exact matrixEntry_nonneg [recS1A, recS2B] (by with_unfolding_all decide))
    (by
      intro sm hs2
      have h0 : ceEngine.collaborative_filter.user_similarity_matrix = some ceSM := by
        with_unfolding_all rfl
      rw [h0] at hs2
      injection hs2 with he
      subst he
      intro u v
      exact cosDelta_nonneg _ _)
    cosDelta_nonneg
  exact ⟨happ.1, happ.2.1⟩
